import Mathlib

/-!
# VastuScan: the detection fusion pipeline of `EnhancedObjectDetector` (model.js)

A shallow embedding of the pure part of `src/model.js`: threshold lookup,
contextual filtering, per-class accumulation, deduplication, quality
assessment and the room expectation validator.

Modelling conventions.

* JavaScript numbers are exact rationals (`ℚ`); values the source keeps
  integral (`Math.round`, `Math.ceil` results, counts) are `Int`.  Rounding
  error of binary floating point is outside the model, so the theorems are
  those whose statement does not turn on it: bounds, orderings, invariants
  and worked examples whose values are the same in double precision.  No
  theorem equates a result of the code with the exact value of a formula in
  non-integral decimals.
* `Math.round x` is `⌊x + 1/2⌋` (ties go up), `Math.ceil x` is `⌈x⌉`.
* An object literal used as a table is a finite map on its own keys, kept as
  an association list in insertion order (`Obj`).  The members an object
  literal inherits from `Object.prototype` are modelled where the key comes
  from the caller, in `getRoomTypeFromName`; the tables indexed by a
  classifier label or by a room type are read on their own keys.
* `a || d` on a number that may be missing is `jsOr`: the default is taken
  when the value is missing or is `0`.
* A `Set` of strings is a duplicate-free list in insertion order.
-/

namespace VastuScan

/-! ## Objects as association lists -/

/-- An object with string keys: association list in insertion order. -/
abbrev Obj (α : Type) := List (String × α)

namespace Obj

/-- Property read `o[key]`: the value stored under `key`, if any. -/
def get {α : Type} : Obj α → String → Option α
  | [], _ => none
  | (k, v) :: rest, key => if k = key then some v else get rest key

/-- Property write `o[key] = v`: overwrite in place, or append a new key. -/
def set {α : Type} : Obj α → String → α → Obj α
  | [], key, v => [(key, v)]
  | (k, w) :: rest, key, v =>
    if k = key then (k, v) :: rest else (k, w) :: set rest key v

/-- Property removal `delete o[key]`. -/
def delete {α : Type} (o : Obj α) (key : String) : Obj α :=
  o.filter (fun p => decide (p.1 ≠ key))

/-- Object spread `{ ...a, ...b }`: the keys of `a`, then those of `b`,
a key of `b` overwriting the same key of `a`. -/
def spread {α : Type} (a b : Obj α) : Obj α :=
  b.foldl (fun acc p => set acc p.1 p.2) a

/-- The keys of the object, `Object.keys(o)`. -/
def keys {α : Type} (o : Obj α) : List String := o.map Prod.fst

end Obj

/-! ## Numeric primitives -/

/-- The idiom `v || d` for a number that may be missing. -/
def jsOr (v : Option ℚ) (d : ℚ) : ℚ :=
  match v with
  | some x => if x = 0 then d else x
  | none => d

/-- The function `Math.round`: nearest integer, ties towards plus infinity. -/
def jsRound (x : ℚ) : Int := Int.floor (x + 1 / 2)

/-- The function `Math.ceil`. -/
def jsCeil (x : ℚ) : Int := Int.ceil x

/-- Insertion into a `Set` of strings (`Set.prototype.add`). -/
def setAdd (s : List String) (x : String) : List String :=
  if x ∈ s then s else s ++ [x]

/-! ## Data model -/

/-- A raw detection as pushed on `allDetections`: the classifier's `class`
and `score`, tagged with the view's `source` and `weight`. -/
structure Detection where
  className : String
  score : ℚ
  source : String
  weight : ℚ
  deriving DecidableEq

/-- The per-class record kept in `objectCounts` and returned in the result
map.  `type` is only present on architectural entries. -/
structure ItemEstimate where
  count : Int
  confidences : List Int
  maxConfidence : Int
  avgConfidence : Int
  sources : List String
  detectionQuality : String
  type : Option String
  deriving DecidableEq

/-- The result map: label to estimate. -/
abbrev ResultMap := Obj ItemEstimate

/-! ## Deduplication and quality (model.js 379-427) -/

/-- The table `strategies.aggressive`. -/
def aggressive : List String := ["person", "cell phone", "book", "cup", "mouse"]

/-- The table `strategies.moderate`. -/
def moderate : List String := ["chair", "cabinet", "potted plant", "clock"]

/-- The table `strategies.conservative`. -/
def conservative : List String :=
  ["bed", "couch", "refrigerator", "tv", "toilet", "sink"]

/-- The table `roomMultipliers`, read as `roomMultipliers[roomType]`. -/
def roomMultipliers (roomType : String) : Option (Obj ℚ) :=
  if roomType = "kitchen" then some [("chair", 1.5), ("cabinet", 2)]
  else if roomType = "bedroom" then some [("chair", 1.2)]
  else if roomType = "entrance" then some [("chair", 0.8)]
  else none

/-- The local `deduplicationFactor` of `intelligentDeduplication`. -/
def deduplicationFactor (className : String) (sourceCount : ℚ) : ℚ :=
  if className ∈ aggressive then max 2 sourceCount
  else if className ∈ moderate then max 1.5 (sourceCount * 0.8)
  else if className ∈ conservative then max 1.2 (sourceCount * 0.6)
  else 1

/-- The local `roomMultiplier`:
`roomMultipliers[roomType]?.[className] || 1`. -/
def roomMultiplier (roomType className : String) : ℚ :=
  jsOr ((roomMultipliers roomType).bind (fun t => t.get className)) 1

/-- The method `intelligentDeduplication(objectData, className, roomType)`. -/
def intelligentDeduplication (objectData : ItemEstimate)
    (className roomType : String) : Int :=
  let count := objectData.count
  let sourceCount : ℚ := (objectData.sources.length : ℚ)
  let finalCount : Int :=
    max 1 (jsCeil ((count : ℚ) / deduplicationFactor className sourceCount
      * roomMultiplier roomType className))
  min finalCount count

/-- The method `assessDetectionQuality(objectData, className)`. -/
def assessDetectionQuality (objectData : ItemEstimate) (_className : String) :
    String :=
  let sourceCount := objectData.sources.length
  if 80 ≤ objectData.maxConfidence ∧ 60 ≤ objectData.avgConfidence
      ∧ 2 ≤ sourceCount then "high"
  else if 60 ≤ objectData.maxConfidence ∧ 40 ≤ objectData.avgConfidence then
    "medium"
  else "low"

/-! ## Thresholds and contextual filtering (model.js 304-377) -/

/-- The table `baseThresholds` of `getRoomSpecificThresholds`. -/
def baseThresholds : Obj ℚ :=
  [("chair", 0.25), ("couch", 0.35), ("bed", 0.35), ("dining table", 0.25),
   ("tv", 0.35), ("laptop", 0.25), ("refrigerator", 0.35), ("toilet", 0.4),
   ("microwave", 0.25), ("oven", 0.3), ("sink", 0.25), ("potted plant", 0.25),
   ("clock", 0.25), ("keyboard", 0.25), ("desk", 0.25),
   ("person", 0.6), ("cell phone", 0.4), ("book", 0.3), ("cup", 0.35),
   ("mouse", 0.3), ("remote", 0.3), ("vase", 0.25)]

/-- The table `roomAdjustments`, read as `roomAdjustments[roomType]`. -/
def roomAdjustments (roomType : String) : Option (Obj ℚ) :=
  if roomType = "kitchen" then
    some [("refrigerator", 0.25), ("microwave", 0.2), ("oven", 0.25),
      ("sink", 0.2), ("dining table", 0.2), ("chair", 0.2)]
  else if roomType = "bathroom" then
    some [("toilet", 0.3), ("sink", 0.2), ("person", 0.7)]
  else if roomType = "toilet" then
    some [("toilet", 0.25), ("sink", 0.2), ("person", 0.8)]
  else if roomType = "bedroom" then
    some [("bed", 0.25), ("chair", 0.2), ("desk", 0.2), ("laptop", 0.2)]
  else if roomType = "entrance" then
    some [("chair", 0.3), ("person", 0.5)]
  else none

/-- The method `getRoomSpecificThresholds(roomType)`:
`{ ...baseThresholds, ...(roomAdjustments[roomType] || {}) }`. -/
def getRoomSpecificThresholds (roomType : String) : Obj ℚ :=
  let adjustments := (roomAdjustments roomType).getD []
  Obj.spread baseThresholds adjustments

/-- One value of the table `contextFilters`. -/
structure ContextFilter where
  unlikely : List String
  threshold_boost : ℚ

/-- The table `contextFilters`, read as `contextFilters[roomType]`. -/
def contextFilters (roomType : String) : Option ContextFilter :=
  if roomType = "toilet" then
    some ⟨["bed", "couch", "dining table", "tv", "laptop"], 0.3⟩
  else if roomType = "kitchen" then some ⟨["bed", "toilet"], 0.2⟩
  else if roomType = "bedroom" then
    some ⟨["toilet", "refrigerator", "oven", "microwave"], 0.2⟩
  else if roomType = "bathroom" then
    some ⟨["bed", "couch", "dining table", "tv"], 0.3⟩
  else none

/-- The method `shouldFilterDetection(detection, roomType,
adjustedConfidence)`: `true` means the detection is dropped. -/
def shouldFilterDetection (detection : Detection) (roomType : String)
    (adjustedConfidence : ℚ) : Bool :=
  let className := detection.className
  match (contextFilters roomType).filter
      (fun f => decide (className ∈ f.unlikely)) with
  | some f => decide (adjustedConfidence < 0.4 + f.threshold_boost)
  | none => decide (className = "person" ∧ adjustedConfidence < 0.5)

/-! ## Accumulation (model.js 255-302) -/

/-- The record a class starts from in `objectCounts`. -/
def freshEntry : ItemEstimate :=
  { count := 0, confidences := [], maxConfidence := 0, avgConfidence := 0,
    sources := [], detectionQuality := "medium", type := none }

/-- The local `confidence` of the loop body:
`detection.score * (detection.weight || 1.0)`. -/
def confidenceOf (detection : Detection) : ℚ :=
  detection.score * jsOr (some detection.weight) 1.0

/-- The test a detection has to pass to be accumulated: neither of the two
early `return`s of the loop body is taken. -/
def survives (roomType : String) (detection : Detection) : Bool :=
  let confidence := confidenceOf detection
  let threshold :=
    jsOr ((getRoomSpecificThresholds roomType).get detection.className) 0.25
  if confidence < threshold then false
  else if shouldFilterDetection detection roomType confidence then false
  else true

/-- The update of a class record by one surviving detection. -/
def bump (obj : ItemEstimate) (detection : Detection) : ItemEstimate :=
  let percent := jsRound (confidenceOf detection * 100)
  { obj with
    count := obj.count + 1
    confidences := obj.confidences ++ [percent]
    maxConfidence := max obj.maxConfidence percent
    sources := setAdd obj.sources detection.source }

/-- The body of `detections.forEach` in `processDetections`. -/
def accumulate (roomType : String) (objectCounts : ResultMap)
    (detection : Detection) : ResultMap :=
  if survives roomType detection then
    let obj := (objectCounts.get detection.className).getD freshEntry
    objectCounts.set detection.className (bump obj detection)
  else objectCounts

/-- The body of the post-processing loop of `processDetections`;
`Array.from(obj.sources)` leaves the list of sources as it is. -/
def postProcess (roomType className : String) (obj : ItemEstimate) :
    ItemEstimate :=
  let obj1 := { obj with
    avgConfidence :=
      jsRound ((obj.confidences.sum : ℚ) / (obj.confidences.length : ℚ)) }
  let obj2 := { obj1 with
    count := intelligentDeduplication obj1 className roomType }
  { obj2 with detectionQuality := assessDetectionQuality obj2 className }

/-- The method `processDetections(detections, roomType)`. -/
def processDetections (detections : List Detection) (roomType : String) :
    ResultMap :=
  let objectCounts := detections.foldl (accumulate roomType) []
  objectCounts.map (fun p => (p.1, postProcess roomType p.1 p.2))

/-- The fusion weights `detectObjects` attaches to detections: `full`,
`center`, focused and unfocused grid cells, `edge_enhanced`. -/
def fusionWeights : List ℚ := [1.0, 1.2, 1.1, 0.8, 0.9]

/-! ## Room expectation validator (model.js 463-515) -/

/-- One value of the table `expectations`. -/
structure Expectation where
  should_have : List String
  might_have : List String
  unlikely : List String

/-- The table `expectations`, read as `expectations[roomType]`. -/
def expectations (roomType : String) : Option Expectation :=
  if roomType = "kitchen" then
    some ⟨["refrigerator", "sink"],
      ["microwave", "oven", "dining table", "chair"], ["bed", "toilet"]⟩
  else if roomType = "bathroom" then
    some ⟨["sink"], ["toilet", "cabinet"], ["bed", "couch", "tv"]⟩
  else if roomType = "toilet" then
    some ⟨["toilet"], ["sink"], ["bed", "couch", "tv", "refrigerator"]⟩
  else if roomType = "bedroom" then
    some ⟨["bed"], ["chair", "desk", "closet"],
      ["toilet", "refrigerator", "oven"]⟩
  else none

/-- The confidence boost applied to one record: `+10`, capped at `95`. -/
def boost (e : ItemEstimate) : ItemEstimate :=
  { e with
    confidences := e.confidences.map (fun c => min 95 (c + 10))
    maxConfidence := min 95 (e.maxConfidence + 10)
    avgConfidence := min 95 (e.avgConfidence + 10) }

/-- The body of `expectation.should_have.forEach`. -/
def boostItem (results : ResultMap) (item : String) : ResultMap :=
  match results.get item with
  | some e => results.set item (boost e)
  | none => results

/-- The body of `expectation.unlikely.forEach`. -/
def pruneItem (results : ResultMap) (item : String) : ResultMap :=
  match results.get item with
  | some e => if e.maxConfidence < 70 then results.delete item else results
  | none => results

/-- The method `validateAgainstRoomExpectations(results, roomType)`. -/
def validateAgainstRoomExpectations (results : ResultMap)
    (roomType : String) : ResultMap :=
  match expectations roomType with
  | none => results
  | some expectation =>
    let boosted := expectation.should_have.foldl boostItem results
    expectation.unlikely.foldl pruneItem boosted

/-- The method `combineAndValidateResults(objectResults,
architecturalResults, roomType)`. -/
def combineAndValidateResults (objectResults architecturalResults : ResultMap)
    (roomType : String) : ResultMap :=
  validateAgainstRoomExpectations
    (Obj.spread objectResults architecturalResults) roomType

/-- The rounded percentage pushed on `confidences` for a detection:
`Math.round(confidence * 100)`. -/
def percentOf (detection : Detection) : Int :=
  jsRound (confidenceOf detection * 100)

/-- The surviving detections of label `L`, in input order. -/
def survivorsOf (roomType L : String) (detections : List Detection) :
    List Detection :=
  detections.filter (fun d => survives roomType d && decide (d.className = L))

/-! ## The specification's wording, kept apart from the code for comparison -/

/-- Deduplication divisor as the specification lists it, by label and
distinct source count `s`. -/
def specDivisor (label : String) (s : ℚ) : ℚ :=
  if label = "person" ∨ label = "cell phone" ∨ label = "book" ∨ label = "cup"
      ∨ label = "mouse" then max 2 s
  else if label = "chair" ∨ label = "cabinet" ∨ label = "potted plant"
      ∨ label = "clock" then max 1.5 (0.8 * s)
  else if label = "bed" ∨ label = "couch" ∨ label = "refrigerator"
      ∨ label = "tv" ∨ label = "toilet" ∨ label = "sink" then
    max 1.2 (0.6 * s)
  else 1

/-- Room multiplier as the specification lists it. -/
def specMultiplier (room label : String) : ℚ :=
  if room = "kitchen" ∧ label = "chair" then 1.5
  else if room = "kitchen" ∧ label = "cabinet" then 2
  else if room = "bedroom" ∧ label = "chair" then 1.2
  else if room = "entrance" ∧ label = "chair" then 0.8
  else 1

/-- Threshold as the specification states it: the room's override if it
defines one for the label, else the base value, else `0.25`. -/
def specThreshold (room label : String) : ℚ :=
  match (roomAdjustments room).bind (fun t => Obj.get t label) with
  | some t => t
  | none =>
    match Obj.get baseThresholds label with
    | some t => t
    | none => 0.25

/-- The labels the room holds implausible (none for a room without a
filter). -/
def specImplausible (room : String) : List String :=
  match contextFilters room with
  | some f => f.unlikely
  | none => []

/-- The room's threshold boost. -/
def specThresholdBoost (room : String) : ℚ :=
  match contextFilters room with
  | some f => f.threshold_boost
  | none => 0

/-- Acceptance rule as the specification states it, on an adjusted
confidence. -/
def specAccepts (room label : String) (adjusted : ℚ) : Prop :=
  specThreshold room label ≤ adjusted
    ∧ (label ∈ specImplausible room → 0.4 + specThresholdBoost room ≤ adjusted)
    ∧ (label = "person" → 0.5 ≤ adjusted)

instance (room label : String) (adjusted : ℚ) :
    Decidable (specAccepts room label adjusted) := by
  unfold specAccepts; infer_instance

/-- Adjusted confidence of a detection: `score * weight`, where a weight of
`0` is read as `1.0`. -/
def specAdjusted (d : Detection) : ℚ :=
  d.score * (if d.weight = 0 then 1 else d.weight)

/-! ## Room names (model.js 517-529) -/

/-- The table `roomTypeMap` of `getRoomTypeFromName`. -/
def roomTypeMap : Obj String :=
  [("kitchen", "kitchen"), ("toilet", "toilet"), ("washroom", "bathroom"),
   ("room1", "bedroom"), ("room2", "bedroom"), ("entrance", "entrance")]

/-- The idiom `v || d` for a string that may be missing: the default is taken
when the value is missing or empty. -/
def jsOrString (v : Option String) (d : String) : String :=
  match v with
  | some x => if x = "" then d else x
  | none => d

/-- The names of the members every object literal inherits from
`Object.prototype`.  Each of them is truthy: a function, or for `__proto__`
the prototype object itself. -/
def objectPrototypeKeys : List String :=
  ["constructor", "hasOwnProperty", "isPrototypeOf", "propertyIsEnumerable",
   "toLocaleString", "toString", "valueOf", "__proto__", "__defineGetter__",
   "__defineSetter__", "__lookupGetter__", "__lookupSetter__"]

/-- What `getRoomTypeFromName` can return: a string, or the member of
`Object.prototype` that the read `roomTypeMap[roomName]` finds under an
inherited key. -/
inductive RoomTypeValue where
  | text (value : String)
  | inherited (key : String)
  deriving DecidableEq

/-- The method `getRoomTypeFromName(roomName)`:
`roomTypeMap[roomName] || 'general'`.  The read finds an own key of the
table, else an inherited member, else `undefined`; only `undefined` (or an
empty string) lets the default through. -/
def getRoomTypeFromName (roomName : String) : RoomTypeValue :=
  match Obj.get roomTypeMap roomName with
  | some value => RoomTypeValue.text (jsOrString (some value) "general")
  | none =>
    if roomName ∈ objectPrototypeKeys then RoomTypeValue.inherited roomName
    else RoomTypeValue.text "general"

/-- The property key a value of `getRoomTypeFromName` stands for when
`detectObjects` indexes its tables with it (`gridConfigs[roomType]` and the
like): the string itself, or the text an inherited member converts to, which
is a key of none of the tables. -/
def roomTypeKey : RoomTypeValue → String
  | RoomTypeValue.text value => value
  | RoomTypeValue.inherited key =>
    if key = "__proto__" then "[object Object]"
    else "function " ++ (if key = "constructor" then "Object" else key)
      ++ "() \x7b [native code] \x7d"

/-- The six values of `RoomType`. -/
def roomTypes : List String :=
  ["general", "kitchen", "bathroom", "toilet", "bedroom", "entrance"]

/-! ## Architectural features (model.js 51-81, 429-461) -/

/-- One value of the table `commonArchitecturalFeatures[roomType]`. -/
structure Feature where
  probability : ℚ
  typical_count : List Int

/-- The entry `commonArchitecturalFeatures.general`. -/
def generalFeatures : Obj Feature :=
  [("door", ⟨0.95, [1, 2]⟩), ("window", ⟨0.8, [1, 3]⟩)]

/-- The table `commonArchitecturalFeatures`, read as
`commonArchitecturalFeatures[roomType]`. -/
def commonArchitecturalFeatures (roomType : String) : Option (Obj Feature) :=
  if roomType = "general" then some generalFeatures
  else if roomType = "kitchen" then
    some [("door", ⟨0.9, [1, 2]⟩), ("window", ⟨0.7, [1, 2]⟩),
      ("cabinet", ⟨0.85, [3, 8]⟩)]
  else if roomType = "bathroom" then
    some [("door", ⟨0.95, [1]⟩), ("window", ⟨0.4, [0, 1]⟩),
      ("cabinet", ⟨0.6, [1, 3]⟩)]
  else if roomType = "toilet" then
    some [("door", ⟨0.95, [1]⟩), ("window", ⟨0.3, [0, 1]⟩),
      ("cabinet", ⟨0.4, [0, 2]⟩)]
  else if roomType = "bedroom" then
    some [("door", ⟨0.9, [1, 2]⟩), ("window", ⟨0.85, [1, 3]⟩),
      ("closet", ⟨0.7, [1, 2]⟩)]
  else if roomType = "entrance" then
    some [("door", ⟨0.98, [1, 3]⟩), ("window", ⟨0.5, [0, 2]⟩)]
  else none

/-- The local `roomFeatures` of `detectArchitecturalFeatures`:
`commonArchitecturalFeatures[roomType] || commonArchitecturalFeatures.general`. -/
def roomFeatures (roomType : String) : Obj Feature :=
  (commonArchitecturalFeatures roomType).getD generalFeatures

/-- The idiom `v || d` for an integer that may be missing. -/
def jsOrInt (v : Option Int) (d : Int) : Int :=
  match v with
  | some x => if x = 0 then d else x
  | none => d

/-- The local `minCount`: `feature.typical_count[0]`. -/
def minCountOf (feature : Feature) : Int := feature.typical_count.headD 0

/-- The local `maxCount`: `feature.typical_count[1] || minCount`. -/
def maxCountOf (feature : Feature) : Int :=
  jsOrInt (feature.typical_count.get? 1) (minCountOf feature)

/-- The entry written to `features[featureName]` for a drawn count and base
confidence. -/
def architecturalEntry (count baseConfidence : Int) : ItemEstimate :=
  { count := count
    confidences := [baseConfidence]
    maxConfidence := baseConfidence
    avgConfidence := baseConfidence
    sources := ["architectural"]
    detectionQuality := if 75 < baseConfidence then "high" else "medium"
    type := some "architectural" }

/-- The body of `Object.keys(roomFeatures).forEach`.  The state is the
`features` object built so far and the number of `Math.random()` calls made
so far; `rand k` is the value of the call number `k`. -/
def detectFeature (rand : Nat → ℚ) (state : ResultMap × Nat)
    (p : String × Feature) : ResultMap × Nat :=
  let features := state.1
  let k := state.2
  let featureName := p.1
  let feature := p.2
  if rand k < feature.probability then
    let minCount := minCountOf feature
    let maxCount := maxCountOf feature
    let count : Int :=
      Int.floor (rand (k + 1) * ((maxCount - minCount + 1 : Int) : ℚ))
        + minCount
    if 0 < count then
      let baseConfidence : Int := 60 + Int.floor (rand (k + 2) * 25)
      (Obj.set features featureName (architecturalEntry count baseConfidence),
        k + 3)
    else (features, k + 2)
  else (features, k + 1)

/-- The method `detectArchitecturalFeatures(image, roomType)`, with the
values of the successive `Math.random()` calls given by `rand`; the image is
not read. -/
def detectArchitecturalFeatures (rand : Nat → ℚ) (roomType : String) :
    ResultMap :=
  ((roomFeatures roomType).foldl (detectFeature rand) ([], 0)).1

/-! ## View planning (model.js 194-239) -/

/-- The part of an image the planner reads: its dimensions. -/
structure Image where
  width : ℚ
  height : ℚ

/-- One value of the table `gridConfigs`. -/
structure GridConfig where
  cols : Nat
  rows : Nat
  focus : String

/-- The entry `gridConfigs.general`. -/
def generalGridConfig : GridConfig := ⟨3, 2, "center"⟩

/-- The table `gridConfigs`, read as `gridConfigs[roomType]`. -/
def gridConfigs (roomType : String) : Option GridConfig :=
  if roomType = "kitchen" then some ⟨3, 2, "lower"⟩
  else if roomType = "bathroom" then some ⟨2, 2, "center"⟩
  else if roomType = "bedroom" then some ⟨3, 2, "center"⟩
  else if roomType = "entrance" then some ⟨2, 3, "vertical"⟩
  else if roomType = "general" then some generalGridConfig
  else none

/-- The local `config` of `createAdaptiveGrid`:
`gridConfigs[roomType] || gridConfigs.general`. -/
def gridConfigOf (roomType : String) : GridConfig :=
  (gridConfigs roomType).getD generalGridConfig

/-- A grid section as pushed on `sections`. -/
structure Section where
  x : ℚ
  y : ℚ
  width : ℚ
  height : ℚ
  weight : ℚ
  enhancement : String

/-- The method `isCenterSection(col, row, totalCols, totalRows)`. -/
def isCenterSection (col row totalCols totalRows : Nat) : Bool :=
  let centerCol : Nat := totalCols / 2
  let centerRow : Nat := totalRows / 2
  decide (|(col : ℚ) - (centerCol : ℚ)| ≤ 0.5
    ∧ |(row : ℚ) - (centerRow : ℚ)| ≤ 0.5)

/-- The body of the inner loop of `createAdaptiveGrid`: the section pushed
for `row` and `col`. -/
def sectionAt (image : Image) (config : GridConfig) (row col : Nat) :
    Section :=
  let sectionWidth := image.width / (config.cols : ℚ)
  let sectionHeight := image.height / (config.rows : ℚ)
  let focused : Bool :=
    if config.focus = "center"
        ∧ isCenterSection col row config.cols config.rows = true then true
    else if config.focus = "lower" ∧ config.rows - 1 ≤ row then true
    else false
  { x := (col : ℚ) * sectionWidth
    y := (row : ℚ) * sectionHeight
    width := sectionWidth
    height := sectionHeight
    weight := if focused then 1.1 else 0.8
    enhancement := if focused then "high" else "medium" }

/-- The method `createAdaptiveGrid(image, roomType)`. -/
def createAdaptiveGrid (image : Image) (roomType : String) : List Section :=
  let config := gridConfigOf roomType
  (List.range config.rows).flatMap (fun row =>
    (List.range config.cols).map (fun col => sectionAt image config row col))

/-! ## The analysis entry points (model.js 128-192, 531-535) -/

/-- A prediction of the classifier: `class` and `score` (the bounding box is
not read by the pipeline). -/
structure Prediction where
  className : String
  score : ℚ

/-- The classifier call `cocoModel.detect(canvas, maxResults)`, as a function
of the view rendered on the canvas (named by its source tag) and of
`maxResults`; `none` is a rejected promise. -/
abbrev Classifier := String → Nat → Option (List Prediction)

/-- The detector's state: the fields `isInitialized` and `cocoModel`. -/
structure Detector where
  isInitialized : Bool
  cocoModel : Option Classifier

/-- The state the constructor leaves. -/
def newDetector : Detector := ⟨false, none⟩

/-- The method `initialize()`: `load` is the outcome of `cocoSsd.load`, `none`
when it throws.  Returns the new state and the boolean result. -/
def loadModel (detector : Detector) (load : Option Classifier) :
    Detector × Bool :=
  match load with
  | some model => (⟨true, some model⟩, true)
  | none => (detector, false)

/-- A view handed to the classifier: source tag, fusion weight and the
`maxResults` argument of the call. -/
structure View where
  source : String
  weight : ℚ
  maxResults : Nat

/-- The views `detectObjects` classifies, in call order: full image, center
crop, the grid sections and the edge-enhanced image. -/
def plannedViews (image : Image) (roomType : String) : List View :=
  [⟨"full", 1.0, 12⟩, ⟨"center", 1.2, 10⟩]
    ++ (createAdaptiveGrid image roomType).enum.map
        (fun p => ⟨"grid_" ++ toString p.1, p.2.weight, 6⟩)
    ++ [⟨"edge_enhanced", 0.9, 8⟩]

/-- The detections pushed on `allDetections` for one view:
`predictions.map(p => ({...p, source, weight}))`. -/
def tagPredictions (view : View) (predictions : List Prediction) :
    List Detection :=
  predictions.map (fun p => ⟨p.className, p.score, view.source, view.weight⟩)

/-- The classifier calls of the `try` block, in order, stopping at the first
call that fails.  The result is `allDetections`, or `none` when a call
failed, together with the source tags of the calls that were made. -/
def classifyViews (detect : Classifier) :
    List View → Option (List Detection) × List String
  | [] => (some [], [])
  | view :: rest =>
    match detect view.source view.maxResults with
    | none => (none, [view.source])
    | some predictions =>
      let later := classifyViews detect rest
      (later.1.map (fun ds => tagPredictions view predictions ++ ds),
        view.source :: later.2)

/-- What a call of `detectObjects` yields: the value returned or the error
thrown, and the source tags of the classifier calls made. -/
structure Outcome where
  result : Except String ResultMap
  calls : List String

/-- The method `detectObjects(image, roomType)`; `rand` gives the values of
the `Math.random()` calls of the architectural estimator. -/
def detectObjects (detector : Detector) (rand : Nat → ℚ) (image : Image)
    (roomType : String) : Outcome :=
  match detector.isInitialized, detector.cocoModel with
  | true, some detect =>
    let classified := classifyViews detect (plannedViews image roomType)
    match classified.1 with
    | some allDetections =>
      let processedObjects := processDetections allDetections roomType
      let architecturalObjects := detectArchitecturalFeatures rand roomType
      ⟨Except.ok (combineAndValidateResults processedObjects
        architecturalObjects roomType), classified.2⟩
    | none => ⟨Except.ok [], classified.2⟩
  | _, _ => ⟨Except.error "Model not initialized", []⟩

/-- The method `analyzeRoom(imageElement, roomName)`. -/
def analyzeRoom (detector : Detector) (rand : Nat → ℚ) (image : Image)
    (roomName : String) : Outcome :=
  detectObjects detector rand image
    (roomTypeKey (getRoomTypeFromName roomName))

/-- Lower end of a feature's typical-count range, as the specification reads
it: the least value listed. -/
def specMinCount (feature : Feature) : Int :=
  feature.typical_count.foldl min (feature.typical_count.headD 0)

/-- Upper end of a feature's typical-count range, as the specification reads
it: the greatest value listed. -/
def specMaxCount (feature : Feature) : Int :=
  feature.typical_count.foldl max (feature.typical_count.headD 0)

/-- What the estimator guarantees of an entry `p` of `features`, given the
feature table `T` of the room. -/
def ArchitecturalOk (T : Obj Feature) (p : String × ItemEstimate) : Prop :=
  ∃ f, Obj.get T p.1 = some f ∧ 1 ≤ p.2.count
    ∧ specMinCount f ≤ p.2.count ∧ p.2.count ≤ specMaxCount f

/-! # Theorems -/

/-! ## Lemmas on objects -/

namespace Obj

theorem get_set {α : Type} (o : Obj α) (k key : String) (v : α) :
    Obj.get (Obj.set o k v) key = if k = key then some v else Obj.get o key := by
  induction o with
  | nil => simp [set, get]
  | cons p rest ih =>
    obtain ⟨a, w⟩ := p
    simp only [set, get]
    split_ifs with h1 h2 h3 <;> simp_all [get]

theorem get_delete {α : Type} (o : Obj α) (k key : String) :
    Obj.get (Obj.delete o k) key = if k = key then none else Obj.get o key := by
  induction o with
  | nil => simp [delete, get]
  | cons p rest ih =>
    obtain ⟨a, w⟩ := p
    unfold delete at ih ⊢
    simp only [List.filter_cons, get]
    split_ifs with h1 h2 h3 <;> simp_all [get]

theorem get_map {α β : Type} (o : Obj α) (f : String → α → β) (key : String) :
    Obj.get (List.map (fun p => (p.1, f p.1 p.2)) o) key
      = (Obj.get o key).map (f key) := by
  induction o with
  | nil => simp [get]
  | cons p rest ih =>
    obtain ⟨a, w⟩ := p
    by_cases hk : a = key
    · subst hk; simp [get]
    · simp [get, hk, ih]

theorem get_eq_none_of_not_mem_keys {α : Type} (o : Obj α) (key : String)
    (h : key ∉ Obj.keys o) : Obj.get o key = none := by
  induction o with
  | nil => simp [get]
  | cons p rest ih =>
    obtain ⟨a, w⟩ := p
    simp only [keys, List.map_cons, List.mem_cons, not_or] at h
    have h2 : key ∉ keys rest := h.2
    simp [get, Ne.symm h.1, ih h2]

theorem get_spread {α : Type} (a b : Obj α) (key : String)
    (hb : (Obj.keys b).Nodup) :
    Obj.get (spread a b) key
      = (Obj.get b key).orElse (fun _ => Obj.get a key) := by
  induction b generalizing a with
  | nil => simp [spread, get]
  | cons p rest ih =>
    obtain ⟨k, v⟩ := p
    simp only [keys, List.map_cons, List.nodup_cons] at hb
    have hrest : Obj.get (spread (Obj.set a k v) rest) key
        = (Obj.get rest key).orElse (fun _ => Obj.get (Obj.set a k v) key) :=
      ih _ hb.2
    have hunf : spread a ((k, v) :: rest) = spread (Obj.set a k v) rest := by
      simp [spread]
    rw [hunf, hrest, get_set]
    by_cases hk : k = key
    · subst hk
      have hnone : get rest k = none := get_eq_none_of_not_mem_keys rest k hb.1
      simp [get, hnone]
    · simp [get, hk]

theorem mem_of_get_eq_some {α : Type} (o : Obj α) (key : String) (v : α)
    (h : Obj.get o key = some v) : (key, v) ∈ o := by
  induction o with
  | nil => simp [get] at h
  | cons p rest ih =>
    obtain ⟨a, w⟩ := p
    by_cases hk : a = key
    · subst hk
      simp [get] at h
      simp [h]
    · simp [get, hk] at h
      exact List.mem_cons_of_mem _ (ih h)

end Obj
/-! ## Lemmas on the accumulation loop -/

theorem foldl_bump (S : List Detection) (e : ItemEstimate) :
    S.foldl bump e =
      { count := e.count + S.length
        confidences := e.confidences ++ S.map percentOf
        maxConfidence := (S.map percentOf).foldl max e.maxConfidence
        avgConfidence := e.avgConfidence
        sources := (S.map Detection.source).foldl setAdd e.sources
        detectionQuality := e.detectionQuality
        type := e.type } := by
  induction S generalizing e with
  | nil => simp
  | cons d ds ih =>
    rw [List.foldl_cons, ih]
    simp [bump, percentOf]
    omega

theorem get_foldl_accumulate (roomType L : String) (detections : List Detection)
    (m : ResultMap) :
    Obj.get (detections.foldl (accumulate roomType) m) L =
      if survivorsOf roomType L detections = [] then Obj.get m L
      else some ((survivorsOf roomType L detections).foldl bump
        ((Obj.get m L).getD freshEntry)) := by
  induction detections generalizing m with
  | nil => simp [survivorsOf]
  | cons d ds ih =>
    rw [List.foldl_cons, ih]
    by_cases hs : survives roomType d = true
    · by_cases hL : d.className = L
      · have h1 : survivorsOf roomType L (d :: ds) = d :: survivorsOf roomType L ds := by
          simp [survivorsOf, hs, hL]
        have h2 : Obj.get (accumulate roomType m d) L
            = some (bump ((Obj.get m L).getD freshEntry) d) := by
          simp [accumulate, hs, Obj.get_set, hL]
        rw [h1, h2]
        by_cases hnil : survivorsOf roomType L ds = [] <;> simp [hnil]
      · have h1 : survivorsOf roomType L (d :: ds) = survivorsOf roomType L ds := by
          simp [survivorsOf, hs, hL]
        have h2 : Obj.get (accumulate roomType m d) L = Obj.get m L := by
          simp [accumulate, hs, Obj.get_set, hL]
        rw [h1, h2]
    · have h1 : survivorsOf roomType L (d :: ds) = survivorsOf roomType L ds := by
        simp [survivorsOf, hs]
      have h2 : accumulate roomType m d = m := by
        simp [accumulate, hs]
      rw [h1, h2]

theorem get_processDetections (detections : List Detection)
    (roomType L : String) :
    Obj.get (processDetections detections roomType) L =
      if survivorsOf roomType L detections = [] then none
      else some (postProcess roomType L
        ((survivorsOf roomType L detections).foldl bump freshEntry)) := by
  unfold processDetections
  simp only []
  rw [Obj.get_map, get_foldl_accumulate]
  by_cases hnil : survivorsOf roomType L detections = [] <;> simp [hnil, Obj.get]

/-! ## Deduplication -/

theorem deduplicationFactor_eq_spec (label : String) (s : ℚ) :
    deduplicationFactor label s = specDivisor label s := by
  simp [deduplicationFactor, specDivisor, aggressive, moderate, conservative,
    mul_comm]

theorem roomMultiplier_eq_spec (room label : String) :
    roomMultiplier room label = specMultiplier room label := by
  unfold roomMultiplier roomMultipliers specMultiplier
  by_cases hk : room = "kitchen"
  · subst hk
    by_cases h1 : label = "chair"
    · subst h1; (simp [Obj.get, jsOr]; try norm_num)
    · by_cases h2 : label = "cabinet"
      · subst h2; (simp [Obj.get, jsOr]; try norm_num)
      · simp [Obj.get, jsOr, h1, h2, Ne.symm h1, Ne.symm h2]
  · by_cases hb : room = "bedroom"
    · subst hb
      by_cases h1 : label = "chair"
      · subst h1; (simp [Obj.get, jsOr]; try norm_num)
      · simp [Obj.get, jsOr, h1, Ne.symm h1]
    · by_cases he : room = "entrance"
      · subst he
        by_cases h1 : label = "chair"
        · subst h1; (simp [Obj.get, jsOr]; try norm_num)
        · simp [Obj.get, jsOr, h1, Ne.symm h1]
      · simp [jsOr, hk, hb, he]

/-- C1: for every label, room type, raw count `n ≥ 1` and set of sources,
`intelligentDeduplication` returns an integer `c` with `1 ≤ c ≤ n`. -/
theorem intelligentDeduplication_bounds (objectData : ItemEstimate)
    (className roomType : String) (h : 1 ≤ objectData.count) :
    1 ≤ intelligentDeduplication objectData className roomType
      ∧ intelligentDeduplication objectData className roomType
          ≤ objectData.count := by
  unfold intelligentDeduplication
  exact ⟨le_min (le_max_left _ _) h, min_le_right _ _⟩

theorem intelligentDeduplication_bounds_witness :
    (1 : Int) ≤ 6
      ∧ 1 ≤ intelligentDeduplication
        ⟨6, [50, 40], 50, 45, ["full", "center"], "medium", none⟩
        "refrigerator" "kitchen"
      ∧ intelligentDeduplication
        ⟨6, [50, 40], 50, 45, ["full", "center"], "medium", none⟩
        "refrigerator" "kitchen" ≤ 6 :=
  ⟨by decide, intelligentDeduplication_bounds
    ⟨6, [50, 40], 50, 45, ["full", "center"], "medium", none⟩
    "refrigerator" "kitchen" (by decide)⟩

/-- C5: `assessDetectionQuality` returns `high` exactly when
`maxConfidence ≥ 80`, `avgConfidence ≥ 60` and there are at least two
distinct sources; otherwise `medium` exactly when `maxConfidence ≥ 60` and
`avgConfidence ≥ 40`; otherwise `low`. -/
theorem assessDetectionQuality_spec (objectData : ItemEstimate)
    (className : String) :
    (assessDetectionQuality objectData className = "high"
        ↔ (80 ≤ objectData.maxConfidence ∧ 60 ≤ objectData.avgConfidence
            ∧ 2 ≤ objectData.sources.length))
      ∧ (assessDetectionQuality objectData className = "medium"
        ↔ (¬ (80 ≤ objectData.maxConfidence ∧ 60 ≤ objectData.avgConfidence
              ∧ 2 ≤ objectData.sources.length)
            ∧ (60 ≤ objectData.maxConfidence
              ∧ 40 ≤ objectData.avgConfidence)))
      ∧ (assessDetectionQuality objectData className = "low"
        ↔ (¬ (80 ≤ objectData.maxConfidence ∧ 60 ≤ objectData.avgConfidence
              ∧ 2 ≤ objectData.sources.length)
            ∧ ¬ (60 ≤ objectData.maxConfidence
              ∧ 40 ≤ objectData.avgConfidence))) := by
  unfold assessDetectionQuality
  simp only []
  by_cases h1 : 80 ≤ objectData.maxConfidence ∧ 60 ≤ objectData.avgConfidence
      ∧ 2 ≤ objectData.sources.length
  · simp [h1]
  · by_cases h2 : 60 ≤ objectData.maxConfidence ∧ 40 ≤ objectData.avgConfidence
    · simp [h1, h2]
    · simp [h1, h2]

/-! ## Thresholds and filtering -/

theorem Obj.forall_of_get {α : Type} (P : α → Prop) (o : Obj α)
    (hall : ∀ p ∈ o, P p.2) (key : String) (v : α)
    (h : Obj.get o key = some v) : P v :=
  hall (key, v) (Obj.mem_of_get_eq_some o key v h)

theorem baseThresholds_ge : ∀ p ∈ baseThresholds, (1 / 5 : ℚ) ≤ p.2 := by
  norm_num [baseThresholds]

theorem roomAdjustments_ge (roomType : String) :
    ∀ p ∈ (roomAdjustments roomType).getD [], (1 / 5 : ℚ) ≤ p.2 := by
  unfold roomAdjustments
  split_ifs <;> norm_num

theorem roomAdjustments_nodup (roomType : String) :
    (Obj.keys ((roomAdjustments roomType).getD [])).Nodup := by
  unfold roomAdjustments
  split_ifs <;> simp [Obj.keys]

theorem threshold_eq_spec (roomType label : String) :
    jsOr (Obj.get (getRoomSpecificThresholds roomType) label) 0.25
      = specThreshold roomType label := by
  unfold getRoomSpecificThresholds specThreshold
  simp only []
  rw [Obj.get_spread _ _ _ (roomAdjustments_nodup roomType)]
  have hbind : (roomAdjustments roomType).bind (fun t => Obj.get t label)
      = Obj.get ((roomAdjustments roomType).getD []) label := by
    cases roomAdjustments roomType <;> simp [Obj.get]
  rw [hbind]
  cases h1 : Obj.get ((roomAdjustments roomType).getD []) label with
  | some t =>
    have ht : (1 / 5 : ℚ) ≤ t :=
      Obj.forall_of_get (fun x => (1 / 5 : ℚ) ≤ x) _
        (roomAdjustments_ge roomType) label t h1
    have ht0 : t ≠ 0 := by intro h0; rw [h0] at ht; norm_num at ht
    simp [jsOr, ht0]
  | none =>
    cases h2 : Obj.get baseThresholds label with
    | some t =>
      have ht : (1 / 5 : ℚ) ≤ t :=
        Obj.forall_of_get (fun x => (1 / 5 : ℚ) ≤ x) _
          baseThresholds_ge label t h2
      have ht0 : t ≠ 0 := by intro h0; rw [h0] at ht; norm_num at ht
      simp [jsOr, ht0]
    | none => simp [jsOr]

theorem specThreshold_ge (roomType label : String) :
    (1 / 5 : ℚ) ≤ specThreshold roomType label := by
  unfold specThreshold
  have hbind : (roomAdjustments roomType).bind (fun t => Obj.get t label)
      = Obj.get ((roomAdjustments roomType).getD []) label := by
    cases roomAdjustments roomType <;> simp [Obj.get]
  rw [hbind]
  cases h1 : Obj.get ((roomAdjustments roomType).getD []) label with
  | some t =>
    exact Obj.forall_of_get (fun x => (1 / 5 : ℚ) ≤ x) _
        (roomAdjustments_ge roomType) label t h1
  | none =>
    cases h2 : Obj.get baseThresholds label with
    | some t =>
      exact Obj.forall_of_get (fun x => (1 / 5 : ℚ) ≤ x) _
          baseThresholds_ge label t h2
    | none => norm_num

theorem person_not_implausible (roomType : String) :
    "person" ∉ specImplausible roomType := by
  unfold specImplausible contextFilters
  split_ifs <;> simp

theorem confidenceOf_eq (d : Detection) :
    confidenceOf d = specAdjusted d := by
  unfold confidenceOf jsOr specAdjusted
  norm_num

theorem shouldFilterDetection_eq (d : Detection) (roomType : String)
    (adjusted : ℚ) :
    shouldFilterDetection d roomType adjusted = false
      ↔ ((d.className ∈ specImplausible roomType
            → 0.4 + specThresholdBoost roomType ≤ adjusted)
          ∧ (d.className = "person" → 0.5 ≤ adjusted)) := by
  have hp := person_not_implausible roomType
  unfold shouldFilterDetection
  unfold specImplausible at hp ⊢
  unfold specThresholdBoost
  cases hf : contextFilters roomType with
  | none => simp [Option.filter]
  | some f =>
    rw [hf] at hp
    by_cases hm : d.className ∈ f.unlikely
    · have hne : d.className ≠ "person" := by
        intro h; rw [h] at hm; exact hp hm
      simp [Option.filter, hm, hne]
    · simp [Option.filter, hm]

theorem survives_iff (roomType : String) (d : Detection) :
    survives roomType d = true
      ↔ specAccepts roomType d.className (confidenceOf d) := by
  unfold survives specAccepts
  simp only []
  rw [threshold_eq_spec, ← shouldFilterDetection_eq]
  by_cases h1 : confidenceOf d < specThreshold roomType d.className
  · simp [h1, not_le.mpr h1]
  · cases h2 : shouldFilterDetection d roomType (confidenceOf d) <;>
      simp [h1, not_lt.mp h1]

theorem survivorsOf_eq_spec (roomType L : String)
    (detections : List Detection) :
    survivorsOf roomType L detections
      = detections.filter (fun d => decide (d.className = L
          ∧ specAccepts roomType L (specAdjusted d))) := by
  unfold survivorsOf
  apply List.filter_congr
  intro d _
  by_cases hL : d.className = L
  · have h := survives_iff roomType d
    rw [confidenceOf_eq, hL] at h
    by_cases hs : survives roomType d = true
    · simp [hs, hL, h.mp hs]
    · have hn : ¬ specAccepts roomType L (specAdjusted d) :=
        fun ha => hs (h.mpr ha)
      simp [hs, hL, hn]
  · simp [hL]

/-! ## Accumulated statistics -/

theorem jsRound_eq (x : ℚ) (z : Int) (h1 : (z : ℚ) ≤ x + 1 / 2)
    (h2 : x + 1 / 2 < (z : ℚ) + 1) : jsRound x = z := by
  unfold jsRound
  exact Int.floor_eq_iff.mpr ⟨h1, h2⟩

theorem jsCeil_eq (x : ℚ) (z : Int) (h1 : (z : ℚ) - 1 < x)
    (h2 : x ≤ (z : ℚ)) : jsCeil x = z := by
  unfold jsCeil
  exact Int.ceil_eq_iff.mpr ⟨h1, h2⟩

theorem le_foldl_max (l : List Int) (a : Int) :
    a ≤ l.foldl max a ∧ ∀ c ∈ l, c ≤ l.foldl max a := by
  induction l generalizing a with
  | nil => simp
  | cons x xs ih =>
    rw [List.foldl_cons]
    obtain ⟨h1, h2⟩ := ih (max a x)
    refine ⟨le_trans (le_max_left a x) h1, ?_⟩
    intro c hc
    rcases List.mem_cons.mp hc with hcx | hcxs
    · rw [hcx]; exact le_trans (le_max_right a x) h1
    · exact h2 c hcxs

theorem foldl_max_eq_or_mem (l : List Int) (a : Int) :
    l.foldl max a = a ∨ l.foldl max a ∈ l := by
  induction l generalizing a with
  | nil => simp
  | cons x xs ih =>
    rw [List.foldl_cons]
    rcases ih (max a x) with h | h
    · rcases max_choice a x with hm | hm
      · left; rw [h, hm]
      · right; rw [h, hm]; exact List.mem_cons_self _ _
    · right; exact List.mem_cons_of_mem _ h

theorem mem_foldl_setAdd (l s : List String) (t : String) :
    t ∈ l.foldl setAdd s ↔ t ∈ s ∨ t ∈ l := by
  induction l generalizing s with
  | nil => simp
  | cons x xs ih =>
    rw [List.foldl_cons, ih]
    unfold setAdd
    by_cases hx : x ∈ s
    · simp only [hx, if_true, List.mem_cons]
      constructor
      · rintro (h | h)
        · exact Or.inl h
        · exact Or.inr (Or.inr h)
      · rintro (h | h | h)
        · exact Or.inl h
        · rw [h]; exact Or.inl hx
        · exact Or.inr h
    · simp only [hx, if_false, List.mem_append, List.mem_singleton,
        List.mem_cons]
      tauto

theorem nodup_foldl_setAdd (l s : List String) (hs : s.Nodup) :
    (l.foldl setAdd s).Nodup := by
  induction l generalizing s with
  | nil => simpa using hs
  | cons x xs ih =>
    rw [List.foldl_cons]
    apply ih
    unfold setAdd
    by_cases hx : x ∈ s
    · simpa [hx] using hs
    · simp only [hx, if_false]
      rw [List.nodup_append]
      refine ⟨hs, List.nodup_singleton x, ?_⟩
      intro a ha hb
      rw [List.mem_singleton] at hb
      rw [hb] at ha
      exact hx ha

theorem percentOf_nonneg_of_survives (roomType : String) (d : Detection)
    (h : survives roomType d = true) : 0 ≤ percentOf d := by
  have ha := ((survives_iff roomType d).mp h).1
  have hge := specThreshold_ge roomType d.className
  unfold percentOf jsRound
  rw [Int.floor_nonneg]
  have : (0 : ℚ) ≤ confidenceOf d := by linarith
  linarith

theorem survives_of_mem_survivorsOf (roomType L : String)
    (detections : List Detection) (d : Detection)
    (h : d ∈ survivorsOf roomType L detections) :
    survives roomType d = true := by
  unfold survivorsOf at h
  rw [List.mem_filter] at h
  simp only [Bool.and_eq_true] at h
  exact h.2.1


theorem percentOf_eq (d : Detection) :
    percentOf d = jsRound (100 * specAdjusted d) := by
  unfold percentOf
  rw [confidenceOf_eq, mul_comm]

theorem get_processDetections_some (detections : List Detection)
    (roomType L : String) (e : ItemEstimate)
    (h : Obj.get (processDetections detections roomType) L = some e) :
    survivorsOf roomType L detections ≠ []
      ∧ e = postProcess roomType L
          ((survivorsOf roomType L detections).foldl bump freshEntry) := by
  rw [get_processDetections] at h
  by_cases hnil : survivorsOf roomType L detections = []
  · rw [if_pos hnil] at h; cases h
  · rw [if_neg hnil] at h
    exact ⟨hnil, (Option.some.inj h).symm⟩

theorem survivors_twoChairs :
    survivorsOf "general" "chair"
      [⟨"chair", 0.5, "full", 1⟩, ⟨"chair", 0.5, "center", 1.2⟩]
      = [⟨"chair", 0.5, "full", 1⟩, ⟨"chair", 0.5, "center", 1.2⟩] := by
  rw [survivorsOf_eq_spec]
  simp [specAccepts, specThreshold, specImplausible, contextFilters,
    roomAdjustments, baseThresholds, Obj.get, specAdjusted]
  norm_num

theorem processDetections_twoChairs :
    Obj.get (processDetections
        [⟨"chair", 0.5, "full", 1⟩, ⟨"chair", 0.5, "center", 1.2⟩] "general")
        "chair"
      = some ⟨2, [50, 60], 60, 55, ["full", "center"], "medium", none⟩ := by
  rw [get_processDetections, survivors_twoChairs, if_neg (by simp), foldl_bump]
  have p1 : percentOf ⟨"chair", 0.5, "full", 1⟩ = 50 := by
    rw [percentOf_eq]
    apply jsRound_eq <;> norm_num [specAdjusted]
  have p2 : percentOf ⟨"chair", 0.5, "center", 1.2⟩ = 60 := by
    rw [percentOf_eq]
    apply jsRound_eq <;> norm_num [specAdjusted]
  have ha : jsRound ((110 : ℚ) / 2) = 55 := by
    apply jsRound_eq <;> norm_num
  have hd : intelligentDeduplication
      ⟨2, [50, 60], 60, 55, ["full", "center"], "medium", none⟩
      "chair" "general" = 2 := by
    unfold intelligentDeduplication
    simp only []
    rw [deduplicationFactor_eq_spec, roomMultiplier_eq_spec]
    have hdiv : specDivisor "chair" 2 = 8 / 5 := by
      simp [specDivisor]; norm_num
    have hmul : specMultiplier "general" "chair" = 1 := by
      simp [specMultiplier]
    have hc : jsCeil ((2 : ℚ) / (8 / 5)) = 2 := by
      apply jsCeil_eq <;> norm_num
    simp [hdiv, hmul, hc]
  simp [p1, p2, freshEntry, setAdd, postProcess, ha, hd,
    assessDetectionQuality]

/-! ## Room expectation validator -/

theorem get_boostItem (m : ResultMap) (item L : String) :
    Obj.get (boostItem m item) L
      = if item = L then (Obj.get m L).map boost else Obj.get m L := by
  unfold boostItem
  by_cases hL : item = L
  · subst hL
    cases hg : Obj.get m item with
    | none => simp [hg]
    | some e => simp [Obj.get_set]
  · cases hg : Obj.get m item with
    | none => simp [hL]
    | some e => simp [Obj.get_set, hL]

theorem get_pruneItem (m : ResultMap) (item L : String) :
    Obj.get (pruneItem m item) L
      = if item = L then
          (Obj.get m L).filter (fun e => decide (70 ≤ e.maxConfidence))
        else Obj.get m L := by
  unfold pruneItem
  by_cases hL : item = L
  · subst hL
    cases hg : Obj.get m item with
    | none => simp [hg]
    | some e =>
      by_cases h70 : e.maxConfidence < 70
      · simp [h70, Obj.get_delete, Option.filter, not_le.mpr h70]
      · simp [h70, hg, Option.filter, not_lt.mp h70]
  · cases hg : Obj.get m item with
    | none => simp [hL]
    | some e =>
      by_cases h70 : e.maxConfidence < 70
      · simp [h70, Obj.get_delete, hL]
      · simp [h70, hL]

theorem get_foldl_boostItem_of_not_mem (items : List String) (m : ResultMap)
    (L : String) (h : L ∉ items) :
    Obj.get (items.foldl boostItem m) L = Obj.get m L := by
  induction items generalizing m with
  | nil => rfl
  | cons x xs ih =>
    rw [List.mem_cons, not_or] at h
    rw [List.foldl_cons, ih _ h.2, get_boostItem, if_neg (Ne.symm h.1)]

theorem get_foldl_boostItem_of_mem (items : List String) (m : ResultMap)
    (L : String) (h : L ∈ items) (hnd : items.Nodup) :
    Obj.get (items.foldl boostItem m) L = (Obj.get m L).map boost := by
  induction items generalizing m with
  | nil => simp at h
  | cons x xs ih =>
    rw [List.nodup_cons] at hnd
    rw [List.foldl_cons]
    by_cases hx : x = L
    · subst hx
      rw [get_foldl_boostItem_of_not_mem xs _ x hnd.1, get_boostItem,
        if_pos rfl]
    · have hmem : L ∈ xs := by
        rcases List.mem_cons.mp h with h1 | h1
        · exact absurd h1.symm hx
        · exact h1
      rw [ih _ hmem hnd.2, get_boostItem, if_neg hx]

theorem get_foldl_pruneItem (items : List String) (m : ResultMap)
    (L : String) :
    Obj.get (items.foldl pruneItem m) L
      = if L ∈ items then
          (Obj.get m L).filter (fun e => decide (70 ≤ e.maxConfidence))
        else Obj.get m L := by
  induction items generalizing m with
  | nil => simp
  | cons x xs ih =>
    rw [List.foldl_cons, ih, get_pruneItem]
    by_cases hx : x = L
    · subst hx
      by_cases hmem : x ∈ xs
      · cases hg : Obj.get m x with
        | none => simp [hmem, Option.filter]
        | some e =>
          by_cases h70 : 70 ≤ e.maxConfidence <;>
            simp [hmem, Option.filter, h70]
      · simp [hmem]
    · have hne : ¬ L = x := fun h => hx h.symm
      simp [hx, hne]

theorem expectations_wf (roomType : String) (expectation : Expectation)
    (h : expectations roomType = some expectation) :
    expectation.should_have.Nodup
      ∧ ∀ L ∈ expectation.should_have, L ∉ expectation.unlikely := by
  unfold expectations at h
  split_ifs at h <;> cases h <;> decide

theorem get_validate_should_have (m : ResultMap) (roomType L : String)
    (expectation : Expectation)
    (hexp : expectations roomType = some expectation)
    (hL : L ∈ expectation.should_have) :
    Obj.get (validateAgainstRoomExpectations m roomType) L
      = (Obj.get m L).map boost := by
  obtain ⟨hnd, hdisj⟩ := expectations_wf roomType expectation hexp
  unfold validateAgainstRoomExpectations
  rw [hexp]
  simp only []
  rw [get_foldl_pruneItem, if_neg (hdisj L hL),
    get_foldl_boostItem_of_mem _ _ _ hL hnd]

theorem get_validate_unlikely (m : ResultMap) (roomType L : String)
    (expectation : Expectation)
    (hexp : expectations roomType = some expectation)
    (hL : L ∈ expectation.unlikely) :
    Obj.get (validateAgainstRoomExpectations m roomType) L
      = (Obj.get m L).filter (fun e => decide (70 ≤ e.maxConfidence)) := by
  obtain ⟨_, hdisj⟩ := expectations_wf roomType expectation hexp
  have hns : L ∉ expectation.should_have := fun hs => hdisj L hs hL
  unfold validateAgainstRoomExpectations
  rw [hexp]
  simp only []
  rw [get_foldl_pruneItem, if_pos hL,
    get_foldl_boostItem_of_not_mem _ _ _ hns]

theorem get_validate_other (m : ResultMap) (roomType L : String)
    (expectation : Expectation)
    (hexp : expectations roomType = some expectation)
    (hs : L ∉ expectation.should_have) (hu : L ∉ expectation.unlikely) :
    Obj.get (validateAgainstRoomExpectations m roomType) L = Obj.get m L := by
  unfold validateAgainstRoomExpectations
  rw [hexp]
  simp only []
  rw [get_foldl_pruneItem, if_neg hu,
    get_foldl_boostItem_of_not_mem _ _ _ hs]

theorem get_validate_none (m : ResultMap) (roomType : String)
    (hexp : expectations roomType = none) :
    validateAgainstRoomExpectations m roomType = m := by
  unfold validateAgainstRoomExpectations
  rw [hexp]


theorem expectations_isSome_iff (roomType : String) :
    (expectations roomType).isSome
      ↔ roomType ∈ ["kitchen", "bathroom", "toilet", "bedroom"] := by
  unfold expectations
  split_ifs <;> simp_all

/-- C6: the room types that define expectations are kitchen, bathroom,
toilet and bedroom; for such a room, `validateAgainstRoomExpectations` removes
an entry whose label is in the room's `unlikely` list when its
`maxConfidence` is below `70`, and keeps it with every field unmodified when
its `maxConfidence` is at least `70`. -/
theorem validate_unlikely (results : ResultMap) (roomType L : String)
    (expectation : Expectation) (e : ItemEstimate)
    (hexp : expectations roomType = some expectation)
    (hL : L ∈ expectation.unlikely)
    (he : Obj.get results L = some e) :
    roomType ∈ ["kitchen", "bathroom", "toilet", "bedroom"]
      ∧ (e.maxConfidence < 70 →
          Obj.get (validateAgainstRoomExpectations results roomType) L = none)
      ∧ (70 ≤ e.maxConfidence →
          Obj.get (validateAgainstRoomExpectations results roomType) L
            = some e) := by
  have hroom : roomType ∈ ["kitchen", "bathroom", "toilet", "bedroom"] :=
    (expectations_isSome_iff roomType).mp (by rw [hexp]; rfl)
  rw [get_validate_unlikely results roomType L expectation hexp hL, he]
  refine ⟨hroom, ?_, ?_⟩
  · intro h
    simp [Option.filter, not_le.mpr h]
  · intro h
    simp [Option.filter, h]

theorem expectations_kitchen :
    expectations "kitchen" = some ⟨["refrigerator", "sink"],
      ["microwave", "oven", "dining table", "chair"], ["bed", "toilet"]⟩ := by
  simp [expectations]

theorem validate_unlikely_witness :
    (expectations "kitchen" = some ⟨["refrigerator", "sink"],
        ["microwave", "oven", "dining table", "chair"], ["bed", "toilet"]⟩
      ∧ "bed" ∈ ["bed", "toilet"]
      ∧ Obj.get [("bed", (⟨1, [65], 65, 65, ["full"], "medium", none⟩ :
          ItemEstimate))] "bed"
          = some ⟨1, [65], 65, 65, ["full"], "medium", none⟩
      ∧ (65 : Int) < 70)
    ∧ Obj.get (validateAgainstRoomExpectations
        [("bed", ⟨1, [65], 65, 65, ["full"], "medium", none⟩)] "kitchen")
        "bed" = none
    ∧ Obj.get (validateAgainstRoomExpectations
        [("bed", ⟨1, [75], 75, 75, ["full"], "medium", none⟩)] "kitchen")
        "bed" = some ⟨1, [75], 75, 75, ["full"], "medium", none⟩ :=
  ⟨⟨expectations_kitchen, by decide, by simp [Obj.get], by decide⟩,
    (validate_unlikely
      [("bed", ⟨1, [65], 65, 65, ["full"], "medium", none⟩)] "kitchen" "bed"
      ⟨["refrigerator", "sink"],
        ["microwave", "oven", "dining table", "chair"], ["bed", "toilet"]⟩
      ⟨1, [65], 65, 65, ["full"], "medium", none⟩
      expectations_kitchen (by decide) (by simp [Obj.get])).2.1 (by decide),
    (validate_unlikely
      [("bed", ⟨1, [75], 75, 75, ["full"], "medium", none⟩)] "kitchen" "bed"
      ⟨["refrigerator", "sink"],
        ["microwave", "oven", "dining table", "chair"], ["bed", "toilet"]⟩
      ⟨1, [75], 75, 75, ["full"], "medium", none⟩
      expectations_kitchen (by decide) (by simp [Obj.get])).2.2 (by decide)⟩

/-- C7: for a room type that defines expectations, an entry whose label is in
the room's `should_have` list is present after
`validateAgainstRoomExpectations` with `maxConfidence` and `avgConfidence`
replaced by `min(95, old + 10)` and every element `c` of `confidences` by
`min(95, c + 10)`; an entry whose label is in neither `should_have` nor
`unlikely` is returned unchanged. -/
theorem validate_should_have (results : ResultMap) (roomType L : String)
    (expectation : Expectation)
    (hexp : expectations roomType = some expectation) :
    (L ∈ expectation.should_have → ∀ e, Obj.get results L = some e →
        Obj.get (validateAgainstRoomExpectations results roomType) L
          = some { e with
              confidences := e.confidences.map (fun c => min 95 (c + 10))
              maxConfidence := min 95 (e.maxConfidence + 10)
              avgConfidence := min 95 (e.avgConfidence + 10) })
      ∧ (L ∉ expectation.should_have → L ∉ expectation.unlikely →
          Obj.get (validateAgainstRoomExpectations results roomType) L
            = Obj.get results L) := by
  refine ⟨?_, ?_⟩
  · intro hL e he
    rw [get_validate_should_have results roomType L expectation hexp hL, he]
    rfl
  · intro hs hu
    exact get_validate_other results roomType L expectation hexp hs hu

theorem expectations_bedroom :
    expectations "bedroom" = some ⟨["bed"], ["chair", "desk", "closet"],
      ["toilet", "refrigerator", "oven"]⟩ := by
  simp [expectations]

theorem validate_should_have_witness :
    (expectations "bedroom" = some ⟨["bed"], ["chair", "desk", "closet"],
        ["toilet", "refrigerator", "oven"]⟩
      ∧ "bed" ∈ ["bed"]
      ∧ Obj.get [("bed", (⟨1, [40], 40, 40, ["full"], "low", none⟩ :
          ItemEstimate)), ("chair", ⟨2, [30, 98], 98, 64, ["full"], "medium",
          none⟩)] "bed" = some ⟨1, [40], 40, 40, ["full"], "low", none⟩
      ∧ "lamp" ∉ ["bed"] ∧ "lamp" ∉ ["toilet", "refrigerator", "oven"])
    ∧ Obj.get (validateAgainstRoomExpectations
        [("bed", ⟨1, [40], 40, 40, ["full"], "low", none⟩),
          ("chair", ⟨2, [30, 98], 98, 64, ["full"], "medium", none⟩)]
        "bedroom") "bed"
        = some ⟨1, [50], 50, 50, ["full"], "low", none⟩
    ∧ Obj.get (validateAgainstRoomExpectations
        [("bed", ⟨1, [40], 40, 40, ["full"], "low", none⟩),
          ("chair", ⟨2, [30, 98], 98, 64, ["full"], "medium", none⟩)]
        "bedroom") "lamp"
        = Obj.get [("bed", (⟨1, [40], 40, 40, ["full"], "low", none⟩ :
          ItemEstimate)), ("chair", ⟨2, [30, 98], 98, 64, ["full"], "medium",
          none⟩)] "lamp" :=
  ⟨⟨expectations_bedroom, by decide, by simp [Obj.get], by decide, by decide⟩,
    (validate_should_have
      [("bed", ⟨1, [40], 40, 40, ["full"], "low", none⟩),
        ("chair", ⟨2, [30, 98], 98, 64, ["full"], "medium", none⟩)]
      "bedroom" "bed"
      ⟨["bed"], ["chair", "desk", "closet"],
        ["toilet", "refrigerator", "oven"]⟩
      expectations_bedroom).1 (by decide)
      ⟨1, [40], 40, 40, ["full"], "low", none⟩ (by simp [Obj.get]),
    (validate_should_have
      [("bed", ⟨1, [40], 40, 40, ["full"], "low", none⟩),
        ("chair", ⟨2, [30, 98], 98, 64, ["full"], "medium", none⟩)]
      "bedroom" "lamp"
      ⟨["bed"], ["chair", "desk", "closet"],
        ["toilet", "refrigerator", "oven"]⟩
      expectations_bedroom).2 (by decide) (by decide)⟩

/-! ## Confidence ranges -/

theorem survivors_bedCenter :
    survivorsOf "bedroom" "bed" [⟨"bed", 1, "center", 1.2⟩]
      = [⟨"bed", 1, "center", 1.2⟩] := by
  rw [survivorsOf_eq_spec]
  simp [specAccepts, specThreshold, specImplausible, contextFilters,
    roomAdjustments, baseThresholds, Obj.get, specAdjusted]
  norm_num

theorem processDetections_bedCenter :
    Obj.get (processDetections [⟨"bed", 1, "center", 1.2⟩] "bedroom") "bed"
      = some ⟨1, [120], 120, 120, ["center"], "medium", none⟩ := by
  rw [get_processDetections, survivors_bedCenter, if_neg (by simp), foldl_bump]
  have p1 : percentOf ⟨"bed", 1, "center", 1.2⟩ = 120 := by
    rw [percentOf_eq]
    apply jsRound_eq <;> norm_num [specAdjusted]
  have ha : jsRound ((120 : ℚ)) = 120 := by
    apply jsRound_eq <;> norm_num
  have hd : intelligentDeduplication
      ⟨1, [120], 120, 120, ["center"], "medium", none⟩
      "bed" "bedroom" = 1 := by
    unfold intelligentDeduplication
    simp only []
    rw [deduplicationFactor_eq_spec, roomMultiplier_eq_spec]
    have hdiv : specDivisor "bed" 1 = 6 / 5 := by
      simp [specDivisor]; norm_num
    have hmul : specMultiplier "bedroom" "bed" = 1 := by
      simp [specMultiplier]
    have hc : jsCeil ((1 : ℚ) / (6 / 5)) = 1 := by
      apply jsCeil_eq <;> norm_num
    simp [hdiv, hmul, hc]
  simp [p1, freshEntry, setAdd, postProcess, ha, hd, assessDetectionQuality]

theorem validate_bedCenter :
    Obj.get (validateAgainstRoomExpectations
        (processDetections [⟨"bed", 1, "center", 1.2⟩] "bedroom") "bedroom")
        "bed"
      = some ⟨1, [95], 95, 95, ["center"], "medium", none⟩ := by
  rw [get_validate_should_have _ "bedroom" "bed" _ expectations_bedroom
    (by decide), processDetections_bedCenter]
  rfl

theorem fusionWeights_bedCenter :
    ∀ d ∈ [(⟨"bed", 1, "center", 1.2⟩ : Detection)],
      0 ≤ d.score ∧ d.score ≤ 1 ∧ d.weight ∈ fusionWeights := by
  intro d hd
  rw [List.mem_singleton] at hd
  subst hd
  simp [fusionWeights]

/-- C8 as stated fails: a `bed` seen in the center view (weight `1.2`) with
score `1` has `maxConfidence = avgConfidence = 120` in a bedroom, and the
validator lowers both to `95`. -/
theorem validate_boost_counterexample :
    ¬ (∀ (detections : List Detection) (roomType L : String)
        (expectation : Expectation) (e e2 : ItemEstimate),
        (∀ d ∈ detections,
          0 ≤ d.score ∧ d.score ≤ 1 ∧ d.weight ∈ fusionWeights) →
        expectations roomType = some expectation →
        L ∈ expectation.should_have →
        Obj.get (processDetections detections roomType) L = some e →
        Obj.get (validateAgainstRoomExpectations
          (processDetections detections roomType) roomType) L = some e2 →
        e.maxConfidence ≤ e2.maxConfidence
          ∧ e.avgConfidence ≤ e2.avgConfidence) := by
  intro h
  have h1 := h [⟨"bed", 1, "center", 1.2⟩] "bedroom" "bed" _ _ _
    fusionWeights_bedCenter expectations_bedroom (by decide)
    processDetections_bedCenter validate_bedCenter
  exact absurd h1.1 (by decide)

/-- C8, as amended: for an entry whose label is in the room's `should_have`
list, `maxConfidence` and `avgConfidence` after
`validateAgainstRoomExpectations` are at least their values before whenever
the value before is at most `95`; a value above `95` is lowered to `95`. -/
theorem validate_boost_monotone (results : ResultMap) (roomType L : String)
    (expectation : Expectation) (e : ItemEstimate)
    (hexp : expectations roomType = some expectation)
    (hL : L ∈ expectation.should_have)
    (he : Obj.get results L = some e) :
    ∃ e2, Obj.get (validateAgainstRoomExpectations results roomType) L
        = some e2
      ∧ (e.maxConfidence ≤ 95 → e.maxConfidence ≤ e2.maxConfidence)
      ∧ (e.avgConfidence ≤ 95 → e.avgConfidence ≤ e2.avgConfidence)
      ∧ (95 < e.maxConfidence → e2.maxConfidence = 95)
      ∧ (95 < e.avgConfidence → e2.avgConfidence = 95) := by
  refine ⟨boost e, ?_, ?_, ?_, ?_, ?_⟩
  · rw [get_validate_should_have results roomType L expectation hexp hL, he]
    rfl
  · intro h
    show e.maxConfidence ≤ min 95 (e.maxConfidence + 10)
    exact le_min h (by omega)
  · intro h
    show e.avgConfidence ≤ min 95 (e.avgConfidence + 10)
    exact le_min h (by omega)
  · intro h
    show min 95 (e.maxConfidence + 10) = 95
    exact min_eq_left (by omega)
  · intro h
    show min 95 (e.avgConfidence + 10) = 95
    exact min_eq_left (by omega)

theorem validate_boost_monotone_witness :
    (expectations "bedroom" = some ⟨["bed"], ["chair", "desk", "closet"],
        ["toilet", "refrigerator", "oven"]⟩
      ∧ "bed" ∈ ["bed"]
      ∧ Obj.get [("bed", (⟨1, [40], 40, 40, ["full"], "low", none⟩ :
          ItemEstimate))] "bed" = some ⟨1, [40], 40, 40, ["full"], "low", none⟩
      ∧ Obj.get (processDetections [⟨"bed", 1, "center", 1.2⟩] "bedroom")
          "bed" = some ⟨1, [120], 120, 120, ["center"], "medium", none⟩
      ∧ (40 : Int) ≤ 95 ∧ (95 : Int) < 120)
    ∧ (∃ e2, Obj.get (validateAgainstRoomExpectations
          [("bed", ⟨1, [40], 40, 40, ["full"], "low", none⟩)] "bedroom") "bed"
          = some e2
        ∧ 40 ≤ e2.maxConfidence ∧ 40 ≤ e2.avgConfidence)
    ∧ (∃ e2, Obj.get (validateAgainstRoomExpectations
          (processDetections [⟨"bed", 1, "center", 1.2⟩] "bedroom")
          "bedroom") "bed" = some e2
        ∧ e2.maxConfidence = 95 ∧ e2.avgConfidence = 95) :=
  ⟨⟨expectations_bedroom, by decide, by simp [Obj.get],
      processDetections_bedCenter, by decide, by decide⟩,
    (validate_boost_monotone
      [("bed", ⟨1, [40], 40, 40, ["full"], "low", none⟩)] "bedroom" "bed" _
      ⟨1, [40], 40, 40, ["full"], "low", none⟩ expectations_bedroom
      (by decide) (by simp [Obj.get])).elim
      (fun e2 h => ⟨e2, h.1, h.2.1 (by decide), h.2.2.1 (by decide)⟩),
    (validate_boost_monotone _ "bedroom" "bed" _
      ⟨1, [120], 120, 120, ["center"], "medium", none⟩ expectations_bedroom
      (by decide) processDetections_bedCenter).elim
      (fun e2 h => ⟨e2, h.1, h.2.2.2.1 (by decide), h.2.2.2.2 (by decide)⟩)⟩

theorem survivors_chairFull :
    survivorsOf "kitchen" "chair" [⟨"chair", 1, "full", 1⟩]
      = [⟨"chair", 1, "full", 1⟩] := by
  rw [survivorsOf_eq_spec]
  simp [specAccepts, specThreshold, specImplausible, contextFilters,
    roomAdjustments, baseThresholds, Obj.get, specAdjusted]
  norm_num

theorem processDetections_chairFull :
    Obj.get (processDetections [⟨"chair", 1, "full", 1⟩] "kitchen") "chair"
      = some ⟨1, [100], 100, 100, ["full"], "medium", none⟩ := by
  rw [get_processDetections, survivors_chairFull, if_neg (by simp), foldl_bump]
  have p1 : percentOf ⟨"chair", 1, "full", 1⟩ = 100 := by
    rw [percentOf_eq]
    apply jsRound_eq <;> norm_num [specAdjusted]
  have ha : jsRound ((100 : ℚ)) = 100 := by
    apply jsRound_eq <;> norm_num
  have hd : intelligentDeduplication
      ⟨1, [100], 100, 100, ["full"], "medium", none⟩
      "chair" "kitchen" = 1 := by
    unfold intelligentDeduplication
    simp only []
    rw [deduplicationFactor_eq_spec, roomMultiplier_eq_spec]
    have hdiv : specDivisor "chair" 1 = 3 / 2 := by
      simp [specDivisor]; norm_num
    have hmul : specMultiplier "kitchen" "chair" = 3 / 2 := by
      simp [specMultiplier]; norm_num
    have hc : jsCeil ((1 : ℚ) / (3 / 2) * (3 / 2)) = 1 := by
      apply jsCeil_eq <;> norm_num
    simp [hdiv, hmul, hc]
  simp [p1, freshEntry, setAdd, postProcess, ha, hd, assessDetectionQuality]

/-- C9 as stated fails: in a kitchen a `chair` detected in the full view with
score `1` keeps `maxConfidence = 100` through the merge with an empty
architectural result and through the validator, since `chair` is not in the
kitchen's `should_have` list. -/
theorem validate_maxConfidence_counterexample :
    ∃ e, Obj.get (combineAndValidateResults
          (processDetections [⟨"chair", 1, "full", 1⟩] "kitchen") []
          "kitchen") "chair" = some e
      ∧ ¬ e.maxConfidence ≤ 95 := by
  refine ⟨⟨1, [100], 100, 100, ["full"], "medium", none⟩, ?_, by decide⟩
  unfold combineAndValidateResults
  have hs : Obj.spread (processDetections [⟨"chair", 1, "full", 1⟩] "kitchen")
      [] = processDetections [⟨"chair", 1, "full", 1⟩] "kitchen" := rfl
  rw [hs, get_validate_other _ "kitchen" "chair" _ expectations_kitchen
    (by decide) (by decide), processDetections_chairFull]

/-- C9, as amended: after `validateAgainstRoomExpectations` every entry whose
label is in the room's `should_have` list has `maxConfidence ≤ 95`; an entry
of any other label is returned with the `maxConfidence` it had before. -/
theorem validate_maxConfidence_cap (results : ResultMap)
    (roomType L : String) (e2 : ItemEstimate)
    (h : Obj.get (validateAgainstRoomExpectations results roomType) L
      = some e2) :
    (∀ expectation, expectations roomType = some expectation →
        L ∈ expectation.should_have → e2.maxConfidence ≤ 95)
      ∧ ((∀ expectation, expectations roomType = some expectation →
          L ∉ expectation.should_have) → Obj.get results L = some e2) := by
  refine ⟨?_, ?_⟩
  · intro expectation hexp hL
    rw [get_validate_should_have results roomType L expectation hexp hL] at h
    cases hg : Obj.get results L with
    | none => rw [hg] at h; cases h
    | some e =>
      rw [hg] at h
      have h2 : boost e = e2 := Option.some.inj h
      rw [← h2]
      exact min_le_left _ _
  · intro hns
    cases hexp : expectations roomType with
    | none =>
      rw [get_validate_none results roomType hexp] at h
      exact h
    | some expectation =>
      have hs := hns expectation hexp
      by_cases hu : L ∈ expectation.unlikely
      · rw [get_validate_unlikely results roomType L expectation hexp hu] at h
        cases hg : Obj.get results L with
        | none => rw [hg] at h; cases h
        | some e =>
          rw [hg] at h
          by_cases h70 : 70 ≤ e.maxConfidence
          · simpa [Option.filter, h70] using h
          · simp [Option.filter, h70] at h
      · rw [get_validate_other results roomType L expectation hexp hs hu] at h
        exact h

theorem validate_chairFull :
    Obj.get (validateAgainstRoomExpectations
        (processDetections [⟨"chair", 1, "full", 1⟩] "kitchen") "kitchen")
        "chair" = some ⟨1, [100], 100, 100, ["full"], "medium", none⟩ := by
  rw [get_validate_other _ "kitchen" "chair" _ expectations_kitchen
    (by decide) (by decide), processDetections_chairFull]

theorem expectations_kitchen_chair :
    ∀ expectation, expectations "kitchen" = some expectation →
      "chair" ∉ expectation.should_have := by
  intro expectation h
  rw [expectations_kitchen] at h
  cases h
  decide

theorem validate_maxConfidence_cap_witness :
    (Obj.get (validateAgainstRoomExpectations
        (processDetections [⟨"bed", 1, "center", 1.2⟩] "bedroom") "bedroom")
        "bed" = some ⟨1, [95], 95, 95, ["center"], "medium", none⟩
      ∧ expectations "bedroom" = some ⟨["bed"], ["chair", "desk", "closet"],
        ["toilet", "refrigerator", "oven"]⟩
      ∧ "bed" ∈ ["bed"]
      ∧ Obj.get (validateAgainstRoomExpectations
        (processDetections [⟨"chair", 1, "full", 1⟩] "kitchen") "kitchen")
        "chair" = some ⟨1, [100], 100, 100, ["full"], "medium", none⟩)
    ∧ (⟨1, [95], 95, 95, ["center"], "medium", none⟩ :
        ItemEstimate).maxConfidence ≤ 95
    ∧ Obj.get (processDetections [⟨"chair", 1, "full", 1⟩] "kitchen") "chair"
        = some ⟨1, [100], 100, 100, ["full"], "medium", none⟩ :=
  ⟨⟨validate_bedCenter, expectations_bedroom, by decide, validate_chairFull⟩,
    (validate_maxConfidence_cap _ "bedroom" "bed" _ validate_bedCenter).1 _
      expectations_bedroom (by decide),
    (validate_maxConfidence_cap _ "kitchen" "chair" _ validate_chairFull).2
      expectations_kitchen_chair⟩

theorem fusionWeights_bounds (w : ℚ) (h : w ∈ fusionWeights) :
    0 < w ∧ w ≤ 6 / 5 := by
  simp only [fusionWeights, List.mem_cons, List.mem_singleton,
    List.mem_nil_iff, or_false] at h
  rcases h with h | h | h | h | h <;> rw [h] <;> norm_num

theorem percentOf_bounds (d : Detection) (h0 : 0 ≤ d.score)
    (h1 : d.score ≤ 1) (hw : d.weight ∈ fusionWeights) :
    0 ≤ percentOf d ∧ percentOf d ≤ 120 := by
  obtain ⟨hpos, hle⟩ := fusionWeights_bounds d.weight hw
  have hne : d.weight ≠ 0 := ne_of_gt hpos
  have hadj : specAdjusted d = d.score * d.weight := by
    simp [specAdjusted, hne]
  have hlo : 0 ≤ d.score * d.weight := mul_nonneg h0 (le_of_lt hpos)
  have hhi : d.score * d.weight ≤ 6 / 5 := by
    calc d.score * d.weight ≤ 1 * d.weight :=
          mul_le_mul_of_nonneg_right h1 (le_of_lt hpos)
      _ = d.weight := one_mul _
      _ ≤ 6 / 5 := hle
  rw [percentOf_eq, hadj]
  unfold jsRound
  constructor
  · rw [Int.floor_nonneg]
    linarith
  · have hlt : Int.floor (100 * (d.score * d.weight) + 1 / 2) < 121 := by
      rw [Int.floor_lt]
      push_cast
      linarith
    omega

theorem foldl_max_le (l : List Int) (a b : Int) (ha : a ≤ b)
    (hl : ∀ c ∈ l, c ≤ b) : l.foldl max a ≤ b := by
  rcases foldl_max_eq_or_mem l a with h | h
  · rw [h]; exact ha
  · exact hl _ h

theorem mem_of_mem_survivorsOf (roomType L : String)
    (detections : List Detection) (d : Detection)
    (h : d ∈ survivorsOf roomType L detections) : d ∈ detections := by
  unfold survivorsOf at h
  exact (List.mem_filter.mp h).1

/-- C10 as stated fails: a `bed` seen in the center view (weight `1.2`) with
score `1` is recorded in a bedroom with confidence `120`, above `100`. -/
theorem processDetections_range_counterexample :
    ¬ (∀ (detections : List Detection) (roomType L : String)
        (e : ItemEstimate),
        (∀ d ∈ detections,
          0 ≤ d.score ∧ d.score ≤ 1 ∧ d.weight ∈ fusionWeights) →
        Obj.get (processDetections detections roomType) L = some e →
        (∀ c ∈ e.confidences, 0 ≤ c ∧ c ≤ 100)
          ∧ 0 ≤ e.maxConfidence ∧ e.maxConfidence ≤ 100) := by
  intro h
  have h1 := h [⟨"bed", 1, "center", 1.2⟩] "bedroom" "bed" _
    fusionWeights_bedCenter processDetections_bedCenter
  exact absurd h1.2.2 (by decide)

/-- C10, as amended: for detections with scores in `[0, 1]` and the view
planner's fusion weights (`1.0`, `1.2`, `1.1`, `0.8`, `0.9`), every entry
returned by `processDetections` has every element of `confidences`, and
`maxConfidence`, in the range `0..120`. -/
theorem processDetections_range (detections : List Detection)
    (roomType L : String) (e : ItemEstimate)
    (hdet : ∀ d ∈ detections,
      0 ≤ d.score ∧ d.score ≤ 1 ∧ d.weight ∈ fusionWeights)
    (h : Obj.get (processDetections detections roomType) L = some e) :
    (∀ c ∈ e.confidences, 0 ≤ c ∧ c ≤ 120)
      ∧ 0 ≤ e.maxConfidence ∧ e.maxConfidence ≤ 120 := by
  obtain ⟨_, he⟩ := get_processDetections_some detections roomType L e h
  rw [foldl_bump] at he
  have hall : ∀ c ∈ (survivorsOf roomType L detections).map percentOf,
      0 ≤ c ∧ c ≤ 120 := by
    intro c hc
    obtain ⟨d, hd, hdc⟩ := List.mem_map.mp hc
    have hd2 := hdet d (mem_of_mem_survivorsOf roomType L detections d hd)
    rw [← hdc]
    exact percentOf_bounds d hd2.1 hd2.2.1 hd2.2.2
  subst he
  refine ⟨?_, ?_, ?_⟩
  · simpa [postProcess, freshEntry] using hall
  · simpa [postProcess, freshEntry] using
      (le_foldl_max ((survivorsOf roomType L detections).map percentOf) 0).1
  · simpa [postProcess, freshEntry] using
      foldl_max_le ((survivorsOf roomType L detections).map percentOf) 0 120
        (by decide) (fun c hc => (hall c hc).2)

theorem processDetections_range_witness :
    ((∀ d ∈ [(⟨"bed", 1, "center", 1.2⟩ : Detection)],
        0 ≤ d.score ∧ d.score ≤ 1 ∧ d.weight ∈ fusionWeights)
      ∧ Obj.get (processDetections [⟨"bed", 1, "center", 1.2⟩] "bedroom")
          "bed" = some ⟨1, [120], 120, 120, ["center"], "medium", none⟩)
    ∧ (∀ c ∈ [(120 : Int)], 0 ≤ c ∧ c ≤ 120)
      ∧ (0 : Int) ≤ 120 ∧ (120 : Int) ≤ 120 :=
  ⟨⟨fusionWeights_bedCenter, processDetections_bedCenter⟩,
    processDetections_range [⟨"bed", 1, "center", 1.2⟩] "bedroom" "bed"
      ⟨1, [120], 120, 120, ["center"], "medium", none⟩
      fusionWeights_bedCenter processDetections_bedCenter⟩

/-! ## Room names -/

theorem getRoomTypeFromName_of_plain (roomName : String)
    (hown : roomName ∉ ["kitchen", "toilet", "washroom", "room1", "room2",
      "entrance"])
    (hproto : roomName ∉ objectPrototypeKeys) :
    getRoomTypeFromName roomName = RoomTypeValue.text "general" := by
  simp only [List.mem_cons, List.mem_singleton, List.mem_nil_iff, or_false,
    not_or] at hown
  obtain ⟨h1, h2, h3, h4, h5, h6⟩ := hown
  simp [getRoomTypeFromName, roomTypeMap, Obj.get, hproto, Ne.symm h1,
    Ne.symm h2, Ne.symm h3, Ne.symm h4, Ne.symm h5, Ne.symm h6]

theorem getRoomTypeFromName_of_inherited (roomName : String)
    (hproto : roomName ∈ objectPrototypeKeys) :
    getRoomTypeFromName roomName = RoomTypeValue.inherited roomName := by
  simp only [objectPrototypeKeys, List.mem_cons, List.mem_singleton,
    List.mem_nil_iff, or_false] at hproto
  rcases hproto with h | h | h | h | h | h | h | h | h | h | h | h <;>
    subst h <;> decide

/-- C12 fails on the code at the room name `constructor`: the read
`roomTypeMap['constructor']` finds the function inherited from
`Object.prototype`, which is truthy, so `getRoomTypeFromName` returns it and
not `general`, and the result is none of the six room types.  On the six
listed names, and on `unknown_x`, the code does what the claim says. -/
theorem getRoomTypeFromName_constructor :
    getRoomTypeFromName "constructor" = RoomTypeValue.inherited "constructor"
      ∧ getRoomTypeFromName "constructor" ≠ RoomTypeValue.text "general"
      ∧ (∀ t ∈ roomTypes,
          getRoomTypeFromName "constructor" ≠ RoomTypeValue.text t)
      ∧ getRoomTypeFromName "kitchen" = RoomTypeValue.text "kitchen"
      ∧ getRoomTypeFromName "toilet" = RoomTypeValue.text "toilet"
      ∧ getRoomTypeFromName "washroom" = RoomTypeValue.text "bathroom"
      ∧ getRoomTypeFromName "room1" = RoomTypeValue.text "bedroom"
      ∧ getRoomTypeFromName "room2" = RoomTypeValue.text "bedroom"
      ∧ getRoomTypeFromName "entrance" = RoomTypeValue.text "entrance"
      ∧ getRoomTypeFromName "unknown_x" = RoomTypeValue.text "general" := by
  decide


/-! ## Average and maximum confidence -/

theorem jsRound_mean_bounds (cs : List Int) (M : Int) (hne : cs ≠ [])
    (h0 : ∀ c ∈ cs, 0 ≤ c) (hM : ∀ c ∈ cs, c ≤ M) :
    0 ≤ jsRound ((cs.sum : ℚ) / (cs.length : ℚ))
      ∧ jsRound ((cs.sum : ℚ) / (cs.length : ℚ)) ≤ M := by
  have hlen : (0 : ℚ) < (cs.length : ℚ) := by
    have : 0 < cs.length := List.length_pos.mpr hne
    exact_mod_cast this
  have hsum0 : (0 : Int) ≤ cs.sum := List.sum_nonneg h0
  have hsumM : cs.sum ≤ cs.length • M := List.sum_le_card_nsmul cs M hM
  have hsum0q : (0 : ℚ) ≤ (cs.sum : ℚ) := by exact_mod_cast hsum0
  have hsumMq : (cs.sum : ℚ) ≤ (cs.length : ℚ) * (M : ℚ) := by
    have h : cs.sum ≤ (cs.length : Int) * M := by simpa using hsumM
    exact_mod_cast h
  have hmean0 : (0 : ℚ) ≤ (cs.sum : ℚ) / (cs.length : ℚ) :=
    div_nonneg hsum0q (le_of_lt hlen)
  have hmeanM : (cs.sum : ℚ) / (cs.length : ℚ) ≤ (M : ℚ) := by
    rw [div_le_iff₀ hlen]
    linarith
  unfold jsRound
  constructor
  · rw [Int.floor_nonneg]
    linarith
  · have hlt : Int.floor ((cs.sum : ℚ) / (cs.length : ℚ) + 1 / 2) < M + 1 := by
      rw [Int.floor_lt, Int.cast_add, Int.cast_one]
      linarith
    omega

theorem processDetections_avg_bounds (detections : List Detection)
    (roomType L : String) (e : ItemEstimate)
    (h : Obj.get (processDetections detections roomType) L = some e) :
    0 ≤ e.avgConfidence ∧ e.avgConfidence ≤ e.maxConfidence := by
  obtain ⟨hne, he⟩ := get_processDetections_some detections roomType L e h
  rw [foldl_bump] at he
  have hmapne : (survivorsOf roomType L detections).map percentOf ≠ [] := by
    simpa using hne
  have hnonneg : ∀ c ∈ (survivorsOf roomType L detections).map percentOf,
      (0 : Int) ≤ c := by
    intro c hc
    obtain ⟨d, hd, hdc⟩ := List.mem_map.mp hc
    rw [← hdc]
    exact percentOf_nonneg_of_survives roomType d
      (survives_of_mem_survivorsOf roomType L detections d hd)
  have hb := jsRound_mean_bounds
    ((survivorsOf roomType L detections).map percentOf)
    (((survivorsOf roomType L detections).map percentOf).foldl max 0)
    hmapne hnonneg
    (le_foldl_max ((survivorsOf roomType L detections).map percentOf) 0).2
  subst he
  simpa [postProcess, freshEntry] using hb

theorem get_validate_cases (results : ResultMap) (roomType L : String)
    (e2 : ItemEstimate)
    (h : Obj.get (validateAgainstRoomExpectations results roomType) L
      = some e2) :
    ∃ e, Obj.get results L = some e ∧ (e2 = e ∨ e2 = boost e) := by
  cases hexp : expectations roomType with
  | none =>
    rw [get_validate_none results roomType hexp] at h
    exact ⟨e2, h, Or.inl rfl⟩
  | some expectation =>
    by_cases hs : L ∈ expectation.should_have
    · rw [get_validate_should_have results roomType L expectation hexp hs]
        at h
      cases hg : Obj.get results L with
      | none => rw [hg] at h; cases h
      | some e =>
        rw [hg] at h
        exact ⟨e, rfl, Or.inr (Option.some.inj h).symm⟩
    · by_cases hu : L ∈ expectation.unlikely
      · rw [get_validate_unlikely results roomType L expectation hexp hu] at h
        cases hg : Obj.get results L with
        | none => rw [hg] at h; cases h
        | some e =>
          rw [hg] at h
          by_cases h70 : 70 ≤ e.maxConfidence
          · have : e = e2 := by simpa [Option.filter, h70] using h
            exact ⟨e, rfl, Or.inl this.symm⟩
          · simp [Option.filter, h70] at h
      · rw [get_validate_other results roomType L expectation hexp hs hu] at h
        exact ⟨e2, h, Or.inl rfl⟩

/-- C11: every entry returned by `processDetections` satisfies
`0 ≤ avgConfidence ≤ maxConfidence`, and so does every entry of the map
after `validateAgainstRoomExpectations`.  (The bound needs no assumption on
the sign of scores and weights: a surviving detection has reached a positive
threshold.) -/
theorem avgConfidence_le_maxConfidence (detections : List Detection)
    (roomType L : String) :
    (∀ e, Obj.get (processDetections detections roomType) L = some e →
        0 ≤ e.avgConfidence ∧ e.avgConfidence ≤ e.maxConfidence)
      ∧ (∀ e2, Obj.get (validateAgainstRoomExpectations
            (processDetections detections roomType) roomType) L = some e2 →
          0 ≤ e2.avgConfidence ∧ e2.avgConfidence ≤ e2.maxConfidence) := by
  refine ⟨fun e h => processDetections_avg_bounds detections roomType L e h,
    ?_⟩
  intro e2 h2
  obtain ⟨e, he, hcase⟩ := get_validate_cases _ roomType L e2 h2
  obtain ⟨h0, h1⟩ := processDetections_avg_bounds detections roomType L e he
  rcases hcase with hc | hc
  · rw [hc]; exact ⟨h0, h1⟩
  · rw [hc]
    show 0 ≤ min 95 (e.avgConfidence + 10)
      ∧ min 95 (e.avgConfidence + 10) ≤ min 95 (e.maxConfidence + 10)
    refine ⟨le_min (by decide) (by omega), ?_⟩
    exact min_le_min (le_refl _) (by omega)

theorem avgConfidence_le_maxConfidence_witness :
    (Obj.get (processDetections
        [⟨"chair", 0.5, "full", 1⟩, ⟨"chair", 0.5, "center", 1.2⟩] "general")
        "chair"
      = some ⟨2, [50, 60], 60, 55, ["full", "center"], "medium", none⟩
      ∧ Obj.get (validateAgainstRoomExpectations
        (processDetections [⟨"bed", 1, "center", 1.2⟩] "bedroom") "bedroom")
        "bed" = some ⟨1, [95], 95, 95, ["center"], "medium", none⟩)
    ∧ ((0 : Int) ≤ 55 ∧ (55 : Int) ≤ 60)
    ∧ ((0 : Int) ≤ 95 ∧ (95 : Int) ≤ 95) :=
  ⟨⟨processDetections_twoChairs, validate_bedCenter⟩,
    (avgConfidence_le_maxConfidence
      [⟨"chair", 0.5, "full", 1⟩, ⟨"chair", 0.5, "center", 1.2⟩]
      "general" "chair").1
      ⟨2, [50, 60], 60, 55, ["full", "center"], "medium", none⟩
      processDetections_twoChairs,
    (avgConfidence_le_maxConfidence [⟨"bed", 1, "center", 1.2⟩]
      "bedroom" "bed").2
      ⟨1, [95], 95, 95, ["center"], "medium", none⟩ validate_bedCenter⟩

/-! ## Architectural features -/

theorem Obj.mem_set {α : Type} (o : Obj α) (k : String) (v : α)
    (p : String × α) (h : p ∈ Obj.set o k v) : p ∈ o ∨ p = (k, v) := by
  induction o with
  | nil =>
    simp only [Obj.set, List.mem_singleton] at h
    exact Or.inr h
  | cons q rest ih =>
    obtain ⟨a, w⟩ := q
    simp only [Obj.set] at h
    split_ifs at h with hk
    · rcases List.mem_cons.mp h with h1 | h1
      · right; rw [h1, hk]
      · left; exact List.mem_cons_of_mem _ h1
    · rcases List.mem_cons.mp h with h1 | h1
      · left; rw [h1]; exact List.mem_cons_self _ _
      · rcases ih h1 with h2 | h2
        · left; exact List.mem_cons_of_mem _ h2
        · right; exact h2

theorem Obj.get_of_mem_of_nodup {α : Type} (o : Obj α) (k : String) (v : α)
    (hnd : (Obj.keys o).Nodup) (h : (k, v) ∈ o) : Obj.get o k = some v := by
  induction o with
  | nil => simp at h
  | cons q rest ih =>
    obtain ⟨a, w⟩ := q
    simp only [Obj.keys, List.map_cons, List.nodup_cons] at hnd
    rcases List.mem_cons.mp h with h1 | h1
    · cases h1
      simp [Obj.get]
    · have hne : a ≠ k := by
        intro hak
        apply hnd.1
        rw [hak]
        exact List.mem_map.mpr ⟨(k, v), h1, rfl⟩
      simp only [Obj.get, if_neg hne]
      exact ih hnd.2 h1

theorem roomFeatures_nodup (roomType : String) :
    (Obj.keys (roomFeatures roomType)).Nodup := by
  unfold roomFeatures commonArchitecturalFeatures
  split_ifs <;> simp [Obj.keys, generalFeatures]

theorem roomFeatures_counts (roomType : String) :
    ∀ p ∈ roomFeatures roomType,
      minCountOf p.2 ≤ maxCountOf p.2
        ∧ specMinCount p.2 = minCountOf p.2
        ∧ specMaxCount p.2 = maxCountOf p.2 := by
  unfold roomFeatures commonArchitecturalFeatures
  split_ifs <;>
    simp [generalFeatures, minCountOf, maxCountOf, jsOrInt, specMinCount,
      specMaxCount]

theorem drawn_count_bounds (r : ℚ) (lo hi : Int) (h0 : 0 ≤ r) (h1 : r < 1)
    (hle : lo ≤ hi) :
    lo ≤ Int.floor (r * ((hi - lo + 1 : Int) : ℚ)) + lo
      ∧ Int.floor (r * ((hi - lo + 1 : Int) : ℚ)) + lo ≤ hi := by
  have hn : (0 : ℚ) < ((hi - lo + 1 : Int) : ℚ) := by
    have : (0 : Int) < hi - lo + 1 := by omega
    exact_mod_cast this
  have hfl0 : 0 ≤ Int.floor (r * ((hi - lo + 1 : Int) : ℚ)) := by
    rw [Int.floor_nonneg]
    exact mul_nonneg h0 (le_of_lt hn)
  have hfl1 : Int.floor (r * ((hi - lo + 1 : Int) : ℚ)) < hi - lo + 1 := by
    rw [Int.floor_lt]
    calc r * ((hi - lo + 1 : Int) : ℚ) < 1 * ((hi - lo + 1 : Int) : ℚ) :=
          mul_lt_mul_of_pos_right h1 hn
      _ = ((hi - lo + 1 : Int) : ℚ) := one_mul _
  constructor <;> omega

theorem detectFeature_ok (rand : Nat → ℚ)
    (hrand : ∀ k, 0 ≤ rand k ∧ rand k < 1) (T : Obj Feature)
    (hT : ∀ q ∈ T, minCountOf q.2 ≤ maxCountOf q.2
      ∧ specMinCount q.2 = minCountOf q.2 ∧ specMaxCount q.2 = maxCountOf q.2)
    (hnd : (Obj.keys T).Nodup) (state : ResultMap × Nat)
    (q : String × Feature) (hq : q ∈ T)
    (hstate : ∀ p ∈ state.1, ArchitecturalOk T p) :
    ∀ p ∈ (detectFeature rand state q).1, ArchitecturalOk T p := by
  intro p hp
  unfold detectFeature at hp
  simp only [] at hp
  split_ifs at hp with h1 h2
  · rcases Obj.mem_set _ _ _ _ hp with hold | hnew
    · exact hstate p hold
    · obtain ⟨hle, hmin, hmax⟩ := hT q hq
      have hb := drawn_count_bounds (rand (state.2 + 1)) (minCountOf q.2)
        (maxCountOf q.2) (hrand _).1 (hrand _).2 hle
      have hget : Obj.get T q.1 = some q.2 :=
        Obj.get_of_mem_of_nodup T q.1 q.2 hnd hq
      rw [hnew]
      refine ⟨q.2, hget, ?_, ?_, ?_⟩
      · show 1 ≤ _
        simp only [architecturalEntry]
        omega
      · rw [hmin]; exact hb.1
      · rw [hmax]; exact hb.2
  · exact hstate p hp
  · exact hstate p hp

theorem foldl_detectFeature_ok (rand : Nat → ℚ)
    (hrand : ∀ k, 0 ≤ rand k ∧ rand k < 1) (T : Obj Feature)
    (hT : ∀ q ∈ T, minCountOf q.2 ≤ maxCountOf q.2
      ∧ specMinCount q.2 = minCountOf q.2 ∧ specMaxCount q.2 = maxCountOf q.2)
    (hnd : (Obj.keys T).Nodup) (fs : List (String × Feature))
    (hfs : ∀ q ∈ fs, q ∈ T) (state : ResultMap × Nat)
    (hstate : ∀ p ∈ state.1, ArchitecturalOk T p) :
    ∀ p ∈ (fs.foldl (detectFeature rand) state).1, ArchitecturalOk T p := by
  induction fs generalizing state with
  | nil => simpa using hstate
  | cons q rest ih =>
    rw [List.foldl_cons]
    apply ih (fun x hx => hfs x (List.mem_cons_of_mem _ hx))
    exact detectFeature_ok rand hrand T hT hnd state q
      (hfs q (List.mem_cons_self _ _)) hstate

theorem detectArchitecturalFeatures_ok (rand : Nat → ℚ)
    (hrand : ∀ k, 0 ≤ rand k ∧ rand k < 1) (roomType L : String)
    (e : ItemEstimate)
    (h : Obj.get (detectArchitecturalFeatures rand roomType) L = some e) :
    ∃ f, Obj.get (roomFeatures roomType) L = some f ∧ 1 ≤ e.count
      ∧ specMinCount f ≤ e.count ∧ e.count ≤ specMaxCount f := by
  have hmem := Obj.mem_of_get_eq_some _ L e h
  exact foldl_detectFeature_ok rand hrand (roomFeatures roomType)
    (roomFeatures_counts roomType) (roomFeatures_nodup roomType)
    (roomFeatures roomType) (fun q hq => hq) ([], 0)
    (fun p hp => absurd hp (List.not_mem_nil p)) (L, e) hmem

theorem detectArchitecturalFeatures_half_entrance :
    detectArchitecturalFeatures (fun _ => 1 / 2) "entrance"
      = [("door", ⟨2, [72], 72, 72, ["architectural"], "medium",
          some "architectural"⟩)] := by
  have hf1 : Int.floor ((2⁻¹ : ℚ) * 3) = 1 := by
    rw [Int.floor_eq_iff]; norm_num
  have hf2 : Int.floor ((2⁻¹ : ℚ) * 25) = 12 := by
    rw [Int.floor_eq_iff]; norm_num
  have hp1 : (2⁻¹ : ℚ) < 0.98 := by norm_num
  have hp2 : ¬ ((2⁻¹ : ℚ) < 0.5) := by norm_num
  simp [detectArchitecturalFeatures, roomFeatures, commonArchitecturalFeatures,
    detectFeature, minCountOf, maxCountOf, jsOrInt, hp1, hp2, hf1, hf2,
    architecturalEntry, Obj.set]

/-- C15: with the pseudo-random draws given as arbitrary values in `[0, 1)`,
every entry returned by `detectArchitecturalFeatures` is for a feature of the
room's feature set (the general set for a room type that defines none) and
has a count `c ≥ 1` with `min ≤ c ≤ max` of the feature's `typical_count`;
`door` in `entrance` has a count in `[1, 3]`, and no entry has count `0`. -/
theorem detectArchitecturalFeatures_spec (rand : Nat → ℚ)
    (hrand : ∀ k, 0 ≤ rand k ∧ rand k < 1) (roomType L : String)
    (e : ItemEstimate)
    (h : Obj.get (detectArchitecturalFeatures rand roomType) L = some e) :
    (∃ f, Obj.get ((commonArchitecturalFeatures roomType).getD
          generalFeatures) L = some f
        ∧ 1 ≤ e.count ∧ specMinCount f ≤ e.count ∧ e.count ≤ specMaxCount f)
      ∧ e.count ≠ 0
      ∧ (roomType = "entrance" → L = "door" → 1 ≤ e.count ∧ e.count ≤ 3) := by
  obtain ⟨f, hf, h1, hlo, hhi⟩ :=
    detectArchitecturalFeatures_ok rand hrand roomType L e h
  refine ⟨⟨f, hf, h1, hlo, hhi⟩, by omega, ?_⟩
  intro hr hL
  subst hr
  subst hL
  have hf2 : f = ⟨0.98, [1, 3]⟩ := by
    simp [roomFeatures, commonArchitecturalFeatures, Obj.get] at hf
    exact hf.symm
  subst hf2
  have hmax : specMaxCount ⟨0.98, [1, 3]⟩ = 3 := by decide
  rw [hmax] at hhi
  exact ⟨h1, hhi⟩

theorem detectArchitecturalFeatures_spec_witness :
    ((∀ k : Nat, (0 : ℚ) ≤ (fun _ => 1 / 2 : Nat → ℚ) k
          ∧ (fun _ => 1 / 2 : Nat → ℚ) k < 1)
      ∧ Obj.get (detectArchitecturalFeatures (fun _ => 1 / 2) "entrance")
          "door" = some ⟨2, [72], 72, 72, ["architectural"], "medium",
            some "architectural"⟩)
    ∧ ((1 : Int) ≤ 2 ∧ (2 : Int) ≤ 3) :=
  ⟨⟨fun _ => by norm_num,
      by rw [detectArchitecturalFeatures_half_entrance]; simp [Obj.get]⟩,
    (detectArchitecturalFeatures_spec (fun _ => 1 / 2)
      (fun _ => by norm_num) "entrance" "door"
      ⟨2, [72], 72, 72, ["architectural"], "medium", some "architectural"⟩
      (by rw [detectArchitecturalFeatures_half_entrance]; simp [Obj.get])).2.2
      rfl rfl⟩

/-! ## Merge of object and architectural results -/

theorem Obj.mem_keys_set {α : Type} (o : Obj α) (k key : String) (v : α) :
    key ∈ Obj.keys (Obj.set o k v) ↔ key ∈ Obj.keys o ∨ key = k := by
  induction o with
  | nil => simp [Obj.set, Obj.keys]
  | cons q rest ih =>
    obtain ⟨a, w⟩ := q
    simp only [Obj.keys] at ih
    simp only [Obj.set, Obj.keys]
    split_ifs with hk
    · subst hk
      simp only [List.map_cons, List.mem_cons]
      tauto
    · simp only [List.map_cons, List.mem_cons, ih]
      tauto

theorem Obj.mem_keys_spread {α : Type} (a b : Obj α) (key : String) :
    key ∈ Obj.keys (Obj.spread a b) ↔ key ∈ Obj.keys a ∨ key ∈ Obj.keys b := by
  induction b generalizing a with
  | nil => simp [Obj.spread, Obj.keys]
  | cons q rest ih =>
    have hunf : Obj.spread a (q :: rest) = Obj.spread (Obj.set a q.1 q.2) rest := by
      simp [Obj.spread]
    rw [hunf, ih, Obj.mem_keys_set]
    simp only [Obj.keys, List.map_cons, List.mem_cons]
    tauto

/-- C16: the map merged by `combineAndValidateResults` is the spread of
the object results and the architectural results: its keys are the union of
their keys, a label of the architectural results carries the architectural
entry (an object entry of the same label is discarded), and any other label
carries its object entry. -/
theorem combineAndValidateResults_merge
    (objectResults architecturalResults : ResultMap) (roomType L : String)
    (hnd : (Obj.keys architecturalResults).Nodup) :
    combineAndValidateResults objectResults architecturalResults roomType
        = validateAgainstRoomExpectations
            (Obj.spread objectResults architecturalResults) roomType
      ∧ (L ∈ Obj.keys (Obj.spread objectResults architecturalResults)
          ↔ L ∈ Obj.keys objectResults ∨ L ∈ Obj.keys architecturalResults)
      ∧ (∀ e, Obj.get architecturalResults L = some e →
          Obj.get (Obj.spread objectResults architecturalResults) L = some e)
      ∧ (Obj.get architecturalResults L = none →
          Obj.get (Obj.spread objectResults architecturalResults) L
            = Obj.get objectResults L) := by
  refine ⟨rfl, Obj.mem_keys_spread _ _ L, ?_, ?_⟩
  · intro e he
    rw [Obj.get_spread _ _ _ hnd, he]
    rfl
  · intro hnone
    rw [Obj.get_spread _ _ _ hnd, hnone]
    rfl

theorem combineAndValidateResults_merge_witness :
    ((Obj.keys [("cabinet", (⟨4, [70], 70, 70, ["architectural"], "medium",
          some "architectural"⟩ : ItemEstimate))]).Nodup
      ∧ Obj.get [("cabinet", (⟨4, [70], 70, 70, ["architectural"], "medium",
          some "architectural"⟩ : ItemEstimate))] "cabinet"
          = some ⟨4, [70], 70, 70, ["architectural"], "medium",
              some "architectural"⟩)
    ∧ Obj.get (Obj.spread
        [("cabinet", (⟨1, [30], 30, 30, ["full"], "low", none⟩ :
            ItemEstimate)),
          ("chair", ⟨1, [40], 40, 40, ["full"], "low", none⟩)]
        [("cabinet", ⟨4, [70], 70, 70, ["architectural"], "medium",
          some "architectural"⟩)]) "cabinet"
      = some ⟨4, [70], 70, 70, ["architectural"], "medium",
          some "architectural"⟩ :=
  ⟨⟨by decide, by simp [Obj.get]⟩,
    (combineAndValidateResults_merge
      [("cabinet", ⟨1, [30], 30, 30, ["full"], "low", none⟩),
        ("chair", ⟨1, [40], 40, 40, ["full"], "low", none⟩)]
      [("cabinet", ⟨4, [70], 70, 70, ["architectural"], "medium",
        some "architectural"⟩)] "general" "cabinet" (by decide)).2.2.1
      ⟨4, [70], 70, 70, ["architectural"], "medium", some "architectural"⟩
      (by simp [Obj.get])⟩

/-! ## End to end: a bed in a bedroom -/

theorem Obj.get_spread_of_not_mem {α : Type} (a b : Obj α) (key : String)
    (h : key ∉ Obj.keys b) : Obj.get (Obj.spread a b) key = Obj.get a key := by
  induction b generalizing a with
  | nil => simp [Obj.spread]
  | cons q rest ih =>
    simp only [Obj.keys, List.map_cons, List.mem_cons, not_or] at h
    have hunf : Obj.spread a (q :: rest)
        = Obj.spread (Obj.set a q.1 q.2) rest := by
      simp [Obj.spread]
    rw [hunf, ih _ h.2, Obj.get_set, if_neg (Ne.symm h.1)]

theorem mem_keys_detectFeature (rand : Nat → ℚ) (state : ResultMap × Nat)
    (q : String × Feature) (key : String)
    (h : key ∈ Obj.keys (detectFeature rand state q).1) :
    key ∈ Obj.keys state.1 ∨ key = q.1 := by
  unfold detectFeature at h
  simp only [] at h
  split_ifs at h
  · exact (Obj.mem_keys_set _ _ _ _).mp h
  · exact Or.inl h
  · exact Or.inl h

theorem mem_keys_foldl_detectFeature (rand : Nat → ℚ)
    (fs : List (String × Feature)) (state : ResultMap × Nat) (key : String)
    (h : key ∈ Obj.keys (fs.foldl (detectFeature rand) state).1) :
    key ∈ Obj.keys state.1 ∨ key ∈ Obj.keys fs := by
  induction fs generalizing state with
  | nil => exact Or.inl h
  | cons q rest ih =>
    rw [List.foldl_cons] at h
    rcases ih _ h with h1 | h1
    · rcases mem_keys_detectFeature rand state q key h1 with h2 | h2
      · exact Or.inl h2
      · right
        rw [h2]
        simp [Obj.keys]
    · right
      simp only [Obj.keys, List.map_cons, List.mem_cons]
      exact Or.inr h1

theorem mem_keys_detectArchitecturalFeatures (rand : Nat → ℚ)
    (roomType key : String)
    (h : key ∈ Obj.keys (detectArchitecturalFeatures rand roomType)) :
    key ∈ Obj.keys (roomFeatures roomType) := by
  rcases mem_keys_foldl_detectFeature rand _ _ key h with h1 | h1
  · simp [Obj.keys] at h1
  · exact h1

theorem processDetections_single_bed (d : Detection)
    (hclass : d.className = "bed") (hconf : confidenceOf d = 0.4) :
    Obj.get (processDetections [d] "bedroom") "bed"
      = some ⟨1, [40], 40, 40, [d.source], "low", none⟩ := by
  have hsurv : survives "bedroom" d = true := by
    rw [survives_iff, hclass, hconf]
    simp [specAccepts, specThreshold, specImplausible, contextFilters,
      roomAdjustments, baseThresholds, Obj.get]
    norm_num
  have hS : survivorsOf "bedroom" "bed" [d] = [d] := by
    simp [survivorsOf, hsurv, hclass]
  have hp : percentOf d = 40 := by
    unfold percentOf
    rw [hconf]
    apply jsRound_eq <;> norm_num
  have ha : jsRound ((40 : ℚ)) = 40 := by
    apply jsRound_eq <;> norm_num
  have hd : intelligentDeduplication
      ⟨1, [40], 40, 40, [d.source], "medium", none⟩ "bed" "bedroom" = 1 := by
    unfold intelligentDeduplication
    simp only []
    rw [deduplicationFactor_eq_spec, roomMultiplier_eq_spec]
    have hdiv : specDivisor "bed" 1 = 6 / 5 := by
      simp [specDivisor]; norm_num
    have hmul : specMultiplier "bedroom" "bed" = 1 := by
      simp [specMultiplier]
    have hc : jsCeil ((1 : ℚ) / (6 / 5)) = 1 := by
      apply jsCeil_eq <;> norm_num
    simp [hdiv, hmul, hc]
  rw [get_processDetections, hS, if_neg (by simp), foldl_bump]
  simp [hp, freshEntry, setAdd, postProcess, ha, hd, assessDetectionQuality]

/-- C13: in a bedroom, when the raw detections are a single `bed` detection
with adjusted confidence `0.40`, then for every outcome of the pseudo-random
architectural estimator the final result map contains `bed` with count `1`
and `maxConfidence = 50`, the accumulated `40` boosted by `10`. -/
theorem bedroom_single_bed (d : Detection) (rand : Nat → ℚ)
    (hclass : d.className = "bed") (hconf : confidenceOf d = 0.4) :
    ∃ e, Obj.get (combineAndValidateResults (processDetections [d] "bedroom")
          (detectArchitecturalFeatures rand "bedroom") "bedroom") "bed"
        = some e
      ∧ e.count = 1 ∧ e.maxConfidence = 50 := by
  refine ⟨boost ⟨1, [40], 40, 40, [d.source], "low", none⟩, ?_, rfl, rfl⟩
  unfold combineAndValidateResults
  rw [get_validate_should_have _ "bedroom" "bed" _ expectations_bedroom
    (by decide)]
  have hnot : "bed" ∉ Obj.keys (detectArchitecturalFeatures rand "bedroom") := by
    intro h
    have h2 := mem_keys_detectArchitecturalFeatures rand "bedroom" "bed" h
    revert h2
    decide
  rw [Obj.get_spread_of_not_mem _ _ _ hnot,
    processDetections_single_bed d hclass hconf]
  rfl

theorem bedroom_single_bed_witness :
    ((⟨"bed", 0.5, "grid_0", 0.8⟩ : Detection).className = "bed"
      ∧ confidenceOf ⟨"bed", 0.5, "grid_0", 0.8⟩ = 0.4)
    ∧ ∃ e, Obj.get (combineAndValidateResults
          (processDetections [⟨"bed", 0.5, "grid_0", 0.8⟩] "bedroom")
          (detectArchitecturalFeatures (fun _ => 1 / 2) "bedroom") "bedroom")
          "bed" = some e
        ∧ e.count = 1 ∧ e.maxConfidence = 50 :=
  ⟨⟨rfl, by norm_num [confidenceOf, jsOr]⟩,
    bedroom_single_bed ⟨"bed", 0.5, "grid_0", 0.8⟩ (fun _ => 1 / 2) rfl
      (by norm_num [confidenceOf, jsOr])⟩

/-! ## Worked example: a refrigerator seen in seven views -/

theorem survives_of_confidence (roomType : String) (d : Detection) (L : String)
    (c : ℚ) (hclass : d.className = L) (hconf : confidenceOf d = c) :
    survives roomType d = true ↔ specAccepts roomType L c := by
  rw [survives_iff, hclass, hconf]

theorem specAccepts_kitchen_refrigerator (c : ℚ) :
    specAccepts "kitchen" "refrigerator" c ↔ 0.25 ≤ c := by
  simp [specAccepts, specThreshold, specImplausible, contextFilters,
    roomAdjustments, Obj.get]

theorem dedup_refrigerator_six (e : ItemEstimate) (hcount : e.count = 6)
    (hsources : e.sources.length = 6) :
    intelligentDeduplication e "refrigerator" "kitchen" = 2 := by
  unfold intelligentDeduplication
  simp only []
  rw [deduplicationFactor_eq_spec, roomMultiplier_eq_spec, hcount, hsources]
  have hdiv : specDivisor "refrigerator" ((6 : ℕ) : ℚ) = 18 / 5 := by
    simp [specDivisor]; norm_num
  have hmul : specMultiplier "kitchen" "refrigerator" = 1 := by
    simp [specMultiplier]
  have hc : jsCeil (((6 : Int) : ℚ) / (18 / 5) * 1) = 2 := by
    apply jsCeil_eq <;> norm_num
  rw [hdiv, hmul, hc]
  decide

/-- C14: in a kitchen, seven `refrigerator` detections with adjusted
confidences `0.50` (full), `0.0` (center), `0.40`, `0.36`, `0.41`, `0.38`
(grid_0 to grid_3) and `0.33` (edge_enhanced): only the center detection is
rejected, six occurrences from six distinct sources survive, the divisor is
`max(1.2, 6 * 0.6) = 3.6`, and the entry has count `2`, `maxConfidence = 50`,
`avgConfidence = 40` and quality `low`. -/
theorem kitchen_refrigerator_example (ds : List Detection)
    (h : ds.map (fun d => (d.className, d.source, confidenceOf d))
      = [("refrigerator", "full", 0.5), ("refrigerator", "center", 0),
         ("refrigerator", "grid_0", 0.4), ("refrigerator", "grid_1", 0.36),
         ("refrigerator", "grid_2", 0.41), ("refrigerator", "grid_3", 0.38),
         ("refrigerator", "edge_enhanced", 0.33)]) :
    survivorsOf "kitchen" "refrigerator" ds
        = ds.filter (fun d => decide (d.source ≠ "center"))
      ∧ (survivorsOf "kitchen" "refrigerator" ds).length = 6
      ∧ deduplicationFactor "refrigerator" 6 = 3.6
      ∧ Obj.get (processDetections ds "kitchen") "refrigerator"
        = some ⟨2, [50, 40, 36, 41, 38, 33], 50, 40,
            ["full", "grid_0", "grid_1", "grid_2", "grid_3", "edge_enhanced"],
            "low", none⟩ := by
  rcases ds with _ | ⟨d1, _ | ⟨d2, _ | ⟨d3, _ | ⟨d4, _ | ⟨d5, _ | ⟨d6,
    _ | ⟨d7, _ | ⟨d8, rest⟩⟩⟩⟩⟩⟩⟩⟩ <;>
    simp only [List.map_cons, List.map_nil, List.cons.injEq, Prod.mk.injEq,
      and_true, reduceCtorEq, and_false, false_and] at h
  obtain ⟨⟨c1, s1, v1⟩, ⟨c2, s2, v2⟩, ⟨c3, s3, v3⟩, ⟨c4, s4, v4⟩,
    ⟨c5, s5, v5⟩, ⟨c6, s6, v6⟩, ⟨c7, s7, v7⟩⟩ := h
  have a1 : survives "kitchen" d1 = true := by
    rw [survives_of_confidence _ _ _ _ c1 v1, specAccepts_kitchen_refrigerator]
    norm_num
  have a2 : survives "kitchen" d2 = false := by
    rw [← Bool.not_eq_true, survives_of_confidence _ _ _ _ c2 v2,
      specAccepts_kitchen_refrigerator]
    norm_num
  have a3 : survives "kitchen" d3 = true := by
    rw [survives_of_confidence _ _ _ _ c3 v3, specAccepts_kitchen_refrigerator]
    norm_num
  have a4 : survives "kitchen" d4 = true := by
    rw [survives_of_confidence _ _ _ _ c4 v4, specAccepts_kitchen_refrigerator]
    norm_num
  have a5 : survives "kitchen" d5 = true := by
    rw [survives_of_confidence _ _ _ _ c5 v5, specAccepts_kitchen_refrigerator]
    norm_num
  have a6 : survives "kitchen" d6 = true := by
    rw [survives_of_confidence _ _ _ _ c6 v6, specAccepts_kitchen_refrigerator]
    norm_num
  have a7 : survives "kitchen" d7 = true := by
    rw [survives_of_confidence _ _ _ _ c7 v7, specAccepts_kitchen_refrigerator]
    norm_num
  have hS : survivorsOf "kitchen" "refrigerator" [d1, d2, d3, d4, d5, d6, d7]
      = [d1, d3, d4, d5, d6, d7] := by
    simp [survivorsOf, a1, a2, a3, a4, a5, a6, a7, c1, c3, c4, c5, c6, c7]
  have p1 : percentOf d1 = 50 := by
    unfold percentOf; rw [v1]; apply jsRound_eq <;> norm_num
  have p3 : percentOf d3 = 40 := by
    unfold percentOf; rw [v3]; apply jsRound_eq <;> norm_num
  have p4 : percentOf d4 = 36 := by
    unfold percentOf; rw [v4]; apply jsRound_eq <;> norm_num
  have p5 : percentOf d5 = 41 := by
    unfold percentOf; rw [v5]; apply jsRound_eq <;> norm_num
  have p6 : percentOf d6 = 38 := by
    unfold percentOf; rw [v6]; apply jsRound_eq <;> norm_num
  have p7 : percentOf d7 = 33 := by
    unfold percentOf; rw [v7]; apply jsRound_eq <;> norm_num
  have ha : jsRound ((238 : ℚ) / 6) = 40 := by
    apply jsRound_eq <;> norm_num
  refine ⟨?_, ?_, ?_, ?_⟩
  · rw [hS]
    simp [s1, s2, s3, s4, s5, s6, s7]
  · rw [hS]; rfl
  · rw [deduplicationFactor_eq_spec]
    simp [specDivisor]; norm_num
  · rw [get_processDetections, hS, if_neg (by simp), foldl_bump]
    have hd := dedup_refrigerator_six
      ⟨6, [50, 40, 36, 41, 38, 33], 50, 40,
        ["full", "grid_0", "grid_1", "grid_2", "grid_3", "edge_enhanced"],
        "medium", none⟩ rfl rfl
    simp [p1, p3, p4, p5, p6, p7, s1, s3, s4, s5, s6, s7, freshEntry, setAdd,
      postProcess, ha, hd, assessDetectionQuality]

theorem kitchen_refrigerator_example_witness :
    ([(⟨"refrigerator", 0.5, "full", 1⟩ : Detection),
        ⟨"refrigerator", 0, "center", 1.2⟩,
        ⟨"refrigerator", 0.5, "grid_0", 0.8⟩,
        ⟨"refrigerator", 0.45, "grid_1", 0.8⟩,
        ⟨"refrigerator", 0.5125, "grid_2", 0.8⟩,
        ⟨"refrigerator", 19 / 55, "grid_3", 1.1⟩,
        ⟨"refrigerator", 11 / 30, "edge_enhanced", 0.9⟩].map
          (fun d => (d.className, d.source, confidenceOf d))
      = [("refrigerator", "full", 0.5), ("refrigerator", "center", 0),
         ("refrigerator", "grid_0", 0.4), ("refrigerator", "grid_1", 0.36),
         ("refrigerator", "grid_2", 0.41), ("refrigerator", "grid_3", 0.38),
         ("refrigerator", "edge_enhanced", 0.33)])
    ∧ Obj.get (processDetections
        [⟨"refrigerator", 0.5, "full", 1⟩,
          ⟨"refrigerator", 0, "center", 1.2⟩,
          ⟨"refrigerator", 0.5, "grid_0", 0.8⟩,
          ⟨"refrigerator", 0.45, "grid_1", 0.8⟩,
          ⟨"refrigerator", 0.5125, "grid_2", 0.8⟩,
          ⟨"refrigerator", 19 / 55, "grid_3", 1.1⟩,
          ⟨"refrigerator", 11 / 30, "edge_enhanced", 0.9⟩] "kitchen")
        "refrigerator"
      = some ⟨2, [50, 40, 36, 41, 38, 33], 50, 40,
          ["full", "grid_0", "grid_1", "grid_2", "grid_3", "edge_enhanced"],
          "low", none⟩ :=
  ⟨by norm_num [confidenceOf, jsOr],
    (kitchen_refrigerator_example _ (by norm_num [confidenceOf, jsOr])).2.2.2⟩

/-! ## The adaptive grid -/

theorem length_grid {α : Type} (f : Nat → Nat → α) (rows cols : Nat) :
    ((List.range rows).flatMap
      (fun row => (List.range cols).map (f row))).length = rows * cols := by
  induction rows with
  | zero => simp
  | succ n ih =>
    rw [List.range_succ, List.flatMap_append, List.length_append, ih,
      List.flatMap_singleton, List.length_map, List.length_range,
      Nat.succ_mul]

theorem getElem?_grid {α : Type} (f : Nat → Nat → α) (rows cols i : Nat) :
    ((List.range rows).flatMap
      (fun row => (List.range cols).map (f row)))[i]?
      = if i < rows * cols then some (f (i / cols) (i % cols)) else none := by
  induction rows with
  | zero => simp
  | succ n ih =>
    rw [List.range_succ, List.flatMap_append, List.getElem?_append,
      length_grid, ih, List.flatMap_singleton]
    by_cases h1 : i < n * cols
    · have h2 : i < (n + 1) * cols := by
        rw [Nat.succ_mul]; omega
      rw [if_pos h1, if_pos h1, if_pos h2]
    · rw [if_neg h1]
      by_cases h2 : i < (n + 1) * cols
      · have h3 : i - n * cols < cols := by
          rw [Nat.succ_mul] at h2; omega
        have hdiv : i / cols = n :=
          Nat.div_eq_of_lt_le (Nat.le_of_not_lt h1) h2
        have hmod : i % cols = i - n * cols := by
          have h4 := Nat.div_add_mod i cols
          rw [hdiv, Nat.mul_comm] at h4
          omega
        rw [if_pos h2, List.getElem?_map, List.getElem?_range h3, hdiv, hmod]
        rfl
      · have h3 : ¬ i - n * cols < cols := by
          rw [Nat.succ_mul] at h2; omega
        rw [if_neg h2, List.getElem?_map]
        have : (List.range cols)[i - n * cols]? = none := by
          rw [List.getElem?_eq_none_iff, List.length_range]
          omega
        rw [this]
        rfl

theorem getElem?_createAdaptiveGrid (image : Image) (roomType : String)
    (i : Nat) :
    (createAdaptiveGrid image roomType)[i]?
      = if i < (gridConfigOf roomType).rows * (gridConfigOf roomType).cols then
          some (sectionAt image (gridConfigOf roomType)
            (i / (gridConfigOf roomType).cols)
            (i % (gridConfigOf roomType).cols))
        else none := by
  unfold createAdaptiveGrid
  exact getElem?_grid _ _ _ i

theorem gridConfigOf_cases (roomType : String) :
    (roomType = "kitchen" ∧ gridConfigOf roomType = ⟨3, 2, "lower"⟩)
      ∨ (roomType = "bathroom" ∧ gridConfigOf roomType = ⟨2, 2, "center"⟩)
      ∨ (roomType = "entrance" ∧ gridConfigOf roomType = ⟨2, 3, "vertical"⟩)
      ∨ (roomType ≠ "kitchen" ∧ roomType ≠ "bathroom" ∧ roomType ≠ "entrance"
          ∧ gridConfigOf roomType = ⟨3, 2, "center"⟩) := by
  unfold gridConfigOf gridConfigs
  split_ifs with h1 h2 h3 h4 h5
  · exact Or.inl ⟨h1, rfl⟩
  · exact Or.inr (Or.inl ⟨h2, rfl⟩)
  · exact Or.inr (Or.inr (Or.inr ⟨h1, h2, fun h => by rw [h] at h3; exact absurd h3 (by decide), rfl⟩))
  · exact Or.inr (Or.inr (Or.inl ⟨h4, rfl⟩))
  · exact Or.inr (Or.inr (Or.inr ⟨h1, h2, h4, rfl⟩))
  · exact Or.inr (Or.inr (Or.inr ⟨h1, h2, h4, rfl⟩))

theorem gridConfigOf_pos (roomType : String) :
    0 < (gridConfigOf roomType).cols ∧ 0 < (gridConfigOf roomType).rows := by
  rcases gridConfigOf_cases roomType with h | h | h | h
  · rw [h.2]; decide
  · rw [h.2]; decide
  · rw [h.2]; decide
  · rw [h.2.2.2]; decide

theorem cell_exists (sw : ℚ) (hsw : 0 < sw) (n : Nat) (p : ℚ) (h0 : 0 ≤ p)
    (h1 : p < (n : ℚ) * sw) :
    ∃ a, a < n ∧ (a : ℚ) * sw ≤ p ∧ p < (a : ℚ) * sw + sw := by
  have hq0 : 0 ≤ p / sw := div_nonneg h0 (le_of_lt hsw)
  refine ⟨Nat.floor (p / sw), ?_, ?_, ?_⟩
  · rw [Nat.floor_lt hq0, div_lt_iff₀ hsw]
    exact h1
  · have h := Nat.floor_le hq0
    rw [le_div_iff₀ hsw] at h
    exact h
  · have h := Nat.lt_floor_add_one (p / sw)
    rw [div_lt_iff₀ hsw] at h
    linarith

theorem cell_le (sw : ℚ) (hsw : 0 < sw) (a b : Nat) (p : ℚ)
    (ha : (a : ℚ) * sw ≤ p) (hb : p < (b : ℚ) * sw + sw) : a ≤ b := by
  have h1 : (a : ℚ) * sw < ((b : ℚ) + 1) * sw := by linarith
  have h2 : (a : ℚ) < (b : ℚ) + 1 := lt_of_mul_lt_mul_right h1 (le_of_lt hsw)
  have h3 : (a : ℚ) < ((b + 1 : Nat) : ℚ) := by push_cast; exact h2
  have h4 : a < b + 1 := by exact_mod_cast h3
  omega

theorem cell_unique (sw : ℚ) (hsw : 0 < sw) (a b : Nat) (p : ℚ)
    (ha : (a : ℚ) * sw ≤ p) (ha2 : p < (a : ℚ) * sw + sw)
    (hb : (b : ℚ) * sw ≤ p) (hb2 : p < (b : ℚ) * sw + sw) : a = b :=
  le_antisymm (cell_le sw hsw a b p ha hb2) (cell_le sw hsw b a p hb ha2)

theorem sectionAt_rect (image : Image) (config : GridConfig) (row col : Nat) :
    (sectionAt image config row col).x
        = (col : ℚ) * (image.width / (config.cols : ℚ))
      ∧ (sectionAt image config row col).y
        = (row : ℚ) * (image.height / (config.rows : ℚ))
      ∧ (sectionAt image config row col).width
        = image.width / (config.cols : ℚ)
      ∧ (sectionAt image config row col).height
        = image.height / (config.rows : ℚ) :=
  ⟨rfl, rfl, rfl, rfl⟩

theorem grid_index (c row col : Nat) (hcol : col < c) :
    (row * c + col) / c = row ∧ (row * c + col) % c = col := by
  constructor
  · apply Nat.div_eq_of_lt_le
    · omega
    · rw [Nat.succ_mul]; omega
  · rw [Nat.add_comm, Nat.add_mul_mod_self_right, Nat.mod_eq_of_lt hcol]

/-- C17: for an image of positive width `w` and height `h`,
`createAdaptiveGrid` returns `cols * rows` sections (4 for bathroom, 6 for
every other room type) in row-major order: the section at index `i` has
`x = (i mod cols) * w / cols`, `y = (i div cols) * h / rows`, width `w / cols`
and height `h / rows`, and every point of the frame lies in exactly one
section. -/
theorem createAdaptiveGrid_spec (image : Image) (roomType : String)
    (hw : 0 < image.width) (hh : 0 < image.height) :
    (createAdaptiveGrid image roomType).length
        = (gridConfigOf roomType).cols * (gridConfigOf roomType).rows
      ∧ (createAdaptiveGrid image roomType).length
        = (if roomType = "bathroom" then 4 else 6)
      ∧ (∀ i, i < (gridConfigOf roomType).cols * (gridConfigOf roomType).rows →
          ∃ s, (createAdaptiveGrid image roomType)[i]? = some s
            ∧ s.x = ((i % (gridConfigOf roomType).cols : Nat) : ℚ)
                * (image.width / ((gridConfigOf roomType).cols : ℚ))
            ∧ s.y = ((i / (gridConfigOf roomType).cols : Nat) : ℚ)
                * (image.height / ((gridConfigOf roomType).rows : ℚ))
            ∧ s.width = image.width / ((gridConfigOf roomType).cols : ℚ)
            ∧ s.height = image.height / ((gridConfigOf roomType).rows : ℚ))
      ∧ (∀ px py : ℚ, 0 ≤ px → px < image.width → 0 ≤ py →
          py < image.height →
          ∃! i : Nat, ∃ s : Section,
            (createAdaptiveGrid image roomType)[i]? = some s
            ∧ s.x ≤ px ∧ px < s.x + s.width
            ∧ s.y ≤ py ∧ py < s.y + s.height) := by
  obtain ⟨hc, hr⟩ := gridConfigOf_pos roomType
  have hlen : (createAdaptiveGrid image roomType).length
      = (gridConfigOf roomType).cols * (gridConfigOf roomType).rows := by
    unfold createAdaptiveGrid
    rw [length_grid, Nat.mul_comm]
  refine ⟨hlen, ?_, ?_, ?_⟩
  · rw [hlen]
    rcases gridConfigOf_cases roomType with h | h | h | h
    · rw [h.2, h.1]; decide
    · rw [h.2, h.1]; decide
    · rw [h.2, h.1]; decide
    · rw [h.2.2.2, if_neg h.2.1]
      rfl
  · intro i hi
    refine ⟨sectionAt image (gridConfigOf roomType)
      (i / (gridConfigOf roomType).cols) (i % (gridConfigOf roomType).cols),
      ?_, rfl, rfl, rfl, rfl⟩
    rw [getElem?_createAdaptiveGrid, if_pos (by rw [Nat.mul_comm]; exact hi)]
  · intro px py hx0 hx1 hy0 hy1
    have hcq : (0 : ℚ) < ((gridConfigOf roomType).cols : ℚ) := by
      exact_mod_cast hc
    have hrq : (0 : ℚ) < ((gridConfigOf roomType).rows : ℚ) := by
      exact_mod_cast hr
    have hsw : 0 < image.width / ((gridConfigOf roomType).cols : ℚ) :=
      div_pos hw hcq
    have hsh : 0 < image.height / ((gridConfigOf roomType).rows : ℚ) :=
      div_pos hh hrq
    have hwx : px < ((gridConfigOf roomType).cols : ℚ)
        * (image.width / ((gridConfigOf roomType).cols : ℚ)) := by
      rw [mul_div_cancel₀ _ (ne_of_gt hcq)]; exact hx1
    have hhy : py < ((gridConfigOf roomType).rows : ℚ)
        * (image.height / ((gridConfigOf roomType).rows : ℚ)) := by
      rw [mul_div_cancel₀ _ (ne_of_gt hrq)]; exact hy1
    obtain ⟨col, hcol, hcx0, hcx1⟩ := cell_exists _ hsw _ px hx0 hwx
    obtain ⟨row, hrow, hry0, hry1⟩ := cell_exists _ hsh _ py hy0 hhy
    obtain ⟨hdiv, hmod⟩ := grid_index (gridConfigOf roomType).cols row col hcol
    have hi : row * (gridConfigOf roomType).cols + col
        < (gridConfigOf roomType).rows * (gridConfigOf roomType).cols := by
      have h1 : (row + 1) * (gridConfigOf roomType).cols
          ≤ (gridConfigOf roomType).rows * (gridConfigOf roomType).cols :=
        Nat.mul_le_mul_right _ hrow
      rw [Nat.succ_mul] at h1
      omega
    refine ⟨row * (gridConfigOf roomType).cols + col, ?_, ?_⟩
    · refine ⟨sectionAt image (gridConfigOf roomType) row col, ?_,
        hcx0, hcx1, hry0, hry1⟩
      rw [getElem?_createAdaptiveGrid, if_pos hi, hdiv, hmod]
    · rintro j ⟨s, hs, hsx0, hsx1, hsy0, hsy1⟩
      rw [getElem?_createAdaptiveGrid] at hs
      split_ifs at hs with hj
      have hs2 := (Option.some.inj hs).symm
      subst hs2
      have e1 : j % (gridConfigOf roomType).cols = col :=
        cell_unique _ hsw _ _ px hsx0 hsx1 hcx0 hcx1
      have e2 : j / (gridConfigOf roomType).cols = row :=
        cell_unique _ hsh _ _ py hsy0 hsy1 hry0 hry1
      have e3 := Nat.div_add_mod j (gridConfigOf roomType).cols
      rw [e1, e2, Nat.mul_comm] at e3
      exact e3.symm

theorem createAdaptiveGrid_spec_witness :
    ((0 : ℚ) < (⟨1200, 600⟩ : Image).width
      ∧ (0 : ℚ) < (⟨1200, 600⟩ : Image).height
      ∧ 4 < (gridConfigOf "kitchen").cols * (gridConfigOf "kitchen").rows
      ∧ (0 : ℚ) ≤ 500 ∧ (500 : ℚ) < 1200 ∧ (0 : ℚ) ≤ 100 ∧ (100 : ℚ) < 600)
    ∧ (createAdaptiveGrid ⟨1200, 600⟩ "kitchen").length = 6
    ∧ (∃ s, (createAdaptiveGrid ⟨1200, 600⟩ "kitchen")[4]? = some s
        ∧ s.x = ((4 % (gridConfigOf "kitchen").cols : Nat) : ℚ)
            * (1200 / ((gridConfigOf "kitchen").cols : ℚ))
        ∧ s.y = ((4 / (gridConfigOf "kitchen").cols : Nat) : ℚ)
            * (600 / ((gridConfigOf "kitchen").rows : ℚ))
        ∧ s.width = 1200 / ((gridConfigOf "kitchen").cols : ℚ)
        ∧ s.height = 600 / ((gridConfigOf "kitchen").rows : ℚ))
    ∧ (∃! i : Nat, ∃ s : Section,
        (createAdaptiveGrid ⟨1200, 600⟩ "kitchen")[i]? = some s
        ∧ s.x ≤ 500 ∧ 500 < s.x + s.width
        ∧ s.y ≤ 100 ∧ 100 < s.y + s.height) :=
  ⟨⟨by norm_num, by norm_num, by decide, by norm_num, by norm_num,
      by norm_num, by norm_num⟩,
    (createAdaptiveGrid_spec ⟨1200, 600⟩ "kitchen" (by norm_num)
      (by norm_num)).2.1,
    (createAdaptiveGrid_spec ⟨1200, 600⟩ "kitchen" (by norm_num)
      (by norm_num)).2.2.1 4 (by decide),
    (createAdaptiveGrid_spec ⟨1200, 600⟩ "kitchen" (by norm_num)
      (by norm_num)).2.2.2 500 100 (by norm_num) (by norm_num) (by norm_num)
      (by norm_num)⟩

/-! ## Weights of the grid sections -/

theorem natCast_abs_sub_le_half (a b : Nat) :
    |(a : ℚ) - (b : ℚ)| ≤ 0.5 ↔ a = b := by
  constructor
  · intro h
    rw [abs_le] at h
    obtain ⟨h1, h2⟩ := h
    have h3 : (a : ℚ) < ((b + 1 : Nat) : ℚ) := by
      push_cast; norm_num at h2; linarith
    have h4 : (b : ℚ) < ((a + 1 : Nat) : ℚ) := by
      push_cast; norm_num at h1; linarith
    have h5 : a < b + 1 := by exact_mod_cast h3
    have h6 : b < a + 1 := by exact_mod_cast h4
    omega
  · intro h
    rw [h]
    norm_num

theorem isCenterSection_iff (col row totalCols totalRows : Nat) :
    isCenterSection col row totalCols totalRows = true
      ↔ col = totalCols / 2 ∧ row = totalRows / 2 := by
  unfold isCenterSection
  simp only [decide_eq_true_eq, natCast_abs_sub_le_half]

/-- The focus region of a grid, on the row-major index of a cell, as the
specification states it: the cell at column `floor(cols / 2)` and row
`floor(rows / 2)` for focus `center`, the last row for focus `lower`, and
nothing for any other focus. -/
theorem sectionAt_weight (image : Image) (config : GridConfig)
    (row col : Nat) (hrow : row < config.rows) :
    (((config.focus = "center" ∧ col = config.cols / 2
          ∧ row = config.rows / 2)
        ∨ (config.focus = "lower" ∧ row = config.rows - 1)) →
        (sectionAt image config row col).weight = 1.1
          ∧ (sectionAt image config row col).enhancement = "high")
      ∧ (¬ ((config.focus = "center" ∧ col = config.cols / 2
          ∧ row = config.rows / 2)
        ∨ (config.focus = "lower" ∧ row = config.rows - 1)) →
        (sectionAt image config row col).weight = 0.8
          ∧ (sectionAt image config row col).enhancement = "medium") := by
  have hlow : config.rows - 1 ≤ row ↔ row = config.rows - 1 := by omega
  by_cases hfc : config.focus = "center"
  · have hnl : config.focus ≠ "lower" := by rw [hfc]; decide
    by_cases hcen : col = config.cols / 2 ∧ row = config.rows / 2
    · simp [sectionAt, hfc, isCenterSection_iff, hcen]
    · simp [sectionAt, hfc, isCenterSection_iff, hcen]
  · by_cases hfl : config.focus = "lower"
    · by_cases hr : row = config.rows - 1
      · have hr2 : config.rows - 1 ≤ row := hlow.mpr hr
        simp [sectionAt, hfl, hr2, hr]
      · have hr2 : ¬ config.rows - 1 ≤ row := fun h => hr (hlow.mp h)
        simp [sectionAt, hfl, hr2, hr]
    · simp [sectionAt, hfc, hfl]

theorem weights_of_config (image : Image) (roomType : String)
    (config : GridConfig) (h : gridConfigOf roomType = config) :
    (createAdaptiveGrid image roomType).map
        (fun s => (s.weight, s.enhancement))
      = (List.range config.rows).flatMap (fun row =>
          (List.range config.cols).map (fun col =>
            ((sectionAt image config row col).weight,
              (sectionAt image config row col).enhancement))) := by
  unfold createAdaptiveGrid
  simp only [h, List.map_flatMap, List.map_map]
  rfl

/-- C18: a section of `createAdaptiveGrid` has weight `1.1` and enhancement
`high` if it lies in the room's focus region and weight `0.8` and enhancement
`medium` otherwise; the focus region is the single cell at column
`floor(cols / 2)`, row `floor(rows / 2)` for focus `center` (index 4 of the
3x2 grid, index 3 of the bathroom's 2x2 grid), the last row for focus `lower`
(indices 3, 4, 5 for kitchen), and empty for any other focus (entrance). -/
theorem createAdaptiveGrid_weights (image : Image) (roomType : String) :
    (∀ (i : Nat) (s : Section),
        (createAdaptiveGrid image roomType)[i]? = some s →
        ((((gridConfigOf roomType).focus = "center"
              ∧ i % (gridConfigOf roomType).cols
                  = (gridConfigOf roomType).cols / 2
              ∧ i / (gridConfigOf roomType).cols
                  = (gridConfigOf roomType).rows / 2)
            ∨ ((gridConfigOf roomType).focus = "lower"
              ∧ i / (gridConfigOf roomType).cols
                  = (gridConfigOf roomType).rows - 1)) →
            s.weight = 1.1 ∧ s.enhancement = "high")
          ∧ (¬ (((gridConfigOf roomType).focus = "center"
              ∧ i % (gridConfigOf roomType).cols
                  = (gridConfigOf roomType).cols / 2
              ∧ i / (gridConfigOf roomType).cols
                  = (gridConfigOf roomType).rows / 2)
            ∨ ((gridConfigOf roomType).focus = "lower"
              ∧ i / (gridConfigOf roomType).cols
                  = (gridConfigOf roomType).rows - 1)) →
            s.weight = 0.8 ∧ s.enhancement = "medium"))
      ∧ (roomType = "kitchen" →
          (createAdaptiveGrid image roomType).map
              (fun s => (s.weight, s.enhancement))
            = [(0.8, "medium"), (0.8, "medium"), (0.8, "medium"),
               (1.1, "high"), (1.1, "high"), (1.1, "high")])
      ∧ (roomType = "bathroom" →
          (createAdaptiveGrid image roomType).map
              (fun s => (s.weight, s.enhancement))
            = [(0.8, "medium"), (0.8, "medium"), (0.8, "medium"),
               (1.1, "high")])
      ∧ (roomType = "entrance" →
          (createAdaptiveGrid image roomType).map
              (fun s => (s.weight, s.enhancement))
            = [(0.8, "medium"), (0.8, "medium"), (0.8, "medium"),
               (0.8, "medium"), (0.8, "medium"), (0.8, "medium")])
      ∧ (roomType ∉ ["kitchen", "bathroom", "entrance"] →
          (createAdaptiveGrid image roomType).map
              (fun s => (s.weight, s.enhancement))
            = [(0.8, "medium"), (0.8, "medium"), (0.8, "medium"),
               (0.8, "medium"), (1.1, "high"), (0.8, "medium")]) := by
  refine ⟨?_, ?_, ?_, ?_, ?_⟩
  · intro i s hs
    rw [getElem?_createAdaptiveGrid] at hs
    split_ifs at hs with hi
    have hs2 := (Option.some.inj hs).symm
    subst hs2
    have hrow : i / (gridConfigOf roomType).cols
        < (gridConfigOf roomType).rows := by
      rw [Nat.div_lt_iff_lt_mul (gridConfigOf_pos roomType).1]
      exact hi
    exact sectionAt_weight image (gridConfigOf roomType) _ _ hrow
  · intro hroom
    have hcfg : gridConfigOf roomType = ⟨3, 2, "lower"⟩ := by
      rw [hroom]; rfl
    rw [weights_of_config image roomType _ hcfg]
    simp [List.range_succ, sectionAt, isCenterSection_iff]
  · intro hroom
    have hcfg : gridConfigOf roomType = ⟨2, 2, "center"⟩ := by
      rw [hroom]; rfl
    rw [weights_of_config image roomType _ hcfg]
    simp [List.range_succ, sectionAt, isCenterSection_iff]
  · intro hroom
    have hcfg : gridConfigOf roomType = ⟨2, 3, "vertical"⟩ := by
      rw [hroom]; rfl
    rw [weights_of_config image roomType _ hcfg]
    simp [List.range_succ, sectionAt, isCenterSection_iff]
  · intro hroom
    simp only [List.mem_cons, List.mem_singleton, List.mem_nil_iff, or_false,
      not_or] at hroom
    have hcfg : gridConfigOf roomType = ⟨3, 2, "center"⟩ := by
      rcases gridConfigOf_cases roomType with h | h | h | h
      · exact absurd h.1 hroom.1
      · exact absurd h.1 hroom.2.1
      · exact absurd h.1 hroom.2.2
      · exact h.2.2.2
    rw [weights_of_config image roomType _ hcfg]
    simp [List.range_succ, sectionAt, isCenterSection_iff]

theorem createAdaptiveGrid_weights_witness :
    ("toilet" ∉ ["kitchen", "bathroom", "entrance"]
      ∧ (createAdaptiveGrid ⟨1200, 600⟩ "general")[4]?
          = some (sectionAt ⟨1200, 600⟩ (gridConfigOf "general") 1 1)
      ∧ (gridConfigOf "general").focus = "center"
      ∧ 4 % (gridConfigOf "general").cols = (gridConfigOf "general").cols / 2
      ∧ 4 / (gridConfigOf "general").cols = (gridConfigOf "general").rows / 2)
    ∧ (createAdaptiveGrid ⟨1200, 600⟩ "kitchen").map
          (fun s => (s.weight, s.enhancement))
        = [(0.8, "medium"), (0.8, "medium"), (0.8, "medium"),
           (1.1, "high"), (1.1, "high"), (1.1, "high")]
    ∧ (createAdaptiveGrid ⟨1200, 600⟩ "toilet").map
          (fun s => (s.weight, s.enhancement))
        = [(0.8, "medium"), (0.8, "medium"), (0.8, "medium"),
           (0.8, "medium"), (1.1, "high"), (0.8, "medium")]
    ∧ ((sectionAt ⟨1200, 600⟩ (gridConfigOf "general") 1 1).weight = 1.1
      ∧ (sectionAt ⟨1200, 600⟩ (gridConfigOf "general") 1 1).enhancement
          = "high") :=
  ⟨⟨by decide, by rw [getElem?_createAdaptiveGrid]; rfl, rfl, rfl, rfl⟩,
    (createAdaptiveGrid_weights ⟨1200, 600⟩ "kitchen").2.1 rfl,
    (createAdaptiveGrid_weights ⟨1200, 600⟩ "toilet").2.2.2.2 (by decide),
    ((createAdaptiveGrid_weights ⟨1200, 600⟩ "general").1 4
      (sectionAt ⟨1200, 600⟩ (gridConfigOf "general") 1 1)
      (by rw [getElem?_createAdaptiveGrid]; rfl)).1
      (Or.inl ⟨rfl, rfl, rfl⟩)⟩

/-! ## Error handling of the analysis entry points -/

theorem classifyViews_eq_none_iff (detect : Classifier) (views : List View) :
    (classifyViews detect views).1 = none
      ↔ ∃ v ∈ views, detect v.source v.maxResults = none := by
  induction views with
  | nil => simp [classifyViews]
  | cons view rest ih =>
    cases hd : detect view.source view.maxResults with
    | none =>
      simp only [classifyViews, hd, true_iff]
      exact ⟨view, List.mem_cons_self _ _, hd⟩
    | some predictions =>
      have hmap : (classifyViews detect (view :: rest)).1 = none
          ↔ (classifyViews detect rest).1 = none := by
        simp only [classifyViews, hd]
        cases (classifyViews detect rest).1 <;> simp
      rw [hmap, ih]
      simp only [List.mem_cons]
      constructor
      · rintro ⟨v, hv, hvd⟩
        exact ⟨v, Or.inr hv, hvd⟩
      · rintro ⟨v, hv | hv, hvd⟩
        · rw [hv, hd] at hvd; cases hvd
        · exact ⟨v, hv, hvd⟩

theorem detectObjects_uninitialized (detector : Detector) (rand : Nat → ℚ)
    (image : Image) (roomType : String)
    (h : detector.isInitialized = false ∨ detector.cocoModel = none) :
    detectObjects detector rand image roomType
      = ⟨Except.error "Model not initialized", []⟩ := by
  unfold detectObjects
  rcases h with h | h
  · rw [h]
  · rw [h]
    cases detector.isInitialized <;> rfl

theorem detectObjects_ready (detector : Detector) (rand : Nat → ℚ)
    (image : Image) (roomType : String) (detect : Classifier)
    (h1 : detector.isInitialized = true)
    (h2 : detector.cocoModel = some detect) :
    (∃ m, (detectObjects detector rand image roomType).result = Except.ok m)
      ∧ ((∃ v ∈ plannedViews image roomType,
            detect v.source v.maxResults = none) →
          (detectObjects detector rand image roomType).result
            = Except.ok []) := by
  unfold detectObjects
  rw [h1, h2]
  simp only []
  cases hc : (classifyViews detect (plannedViews image roomType)).1 with
  | none => exact ⟨⟨[], rfl⟩, fun _ => rfl⟩
  | some allDetections =>
    refine ⟨⟨_, rfl⟩, ?_⟩
    intro hfail
    have := (classifyViews_eq_none_iff detect _).mpr hfail
    rw [hc] at this
    cases this

/-- C19: with the classifier as a function that may fail, `analyzeRoom`
(through `detectObjects`) raises `Model not initialized` exactly when
`isInitialized` is false or no model is loaded, and then makes no classifier
call; an initialized detector never raises, and if the classifier call fails
for any view the result is the empty map. -/
theorem analyzeRoom_errors (detector : Detector) (rand : Nat → ℚ)
    (image : Image) (roomName : String) :
    ((analyzeRoom detector rand image roomName).result
          = Except.error "Model not initialized"
        ↔ (detector.isInitialized = false ∨ detector.cocoModel = none))
      ∧ ((detector.isInitialized = false ∨ detector.cocoModel = none) →
          (analyzeRoom detector rand image roomName).calls = [])
      ∧ (∀ detect, detector.isInitialized = true →
          detector.cocoModel = some detect →
          (∃ m, (analyzeRoom detector rand image roomName).result
              = Except.ok m)
            ∧ ((∃ v ∈ plannedViews image
                    (roomTypeKey (getRoomTypeFromName roomName)),
                  detect v.source v.maxResults = none) →
                (analyzeRoom detector rand image roomName).result
                  = Except.ok [])) := by
  unfold analyzeRoom
  refine ⟨?_, ?_, ?_⟩
  · constructor
    · intro h
      by_cases hi : detector.isInitialized = true
      · cases hm : detector.cocoModel with
        | none => exact Or.inr rfl
        | some detect =>
          obtain ⟨m, hm2⟩ := (detectObjects_ready detector rand image
            (roomTypeKey (getRoomTypeFromName roomName)) detect hi hm).1
          rw [hm2] at h
          cases h
      · left
        simpa using hi
    · intro h
      rw [detectObjects_uninitialized detector rand image _ h]
  · intro h
    rw [detectObjects_uninitialized detector rand image _ h]
  · intro detect h1 h2
    exact detectObjects_ready detector rand image _ detect h1 h2

theorem analyzeRoom_errors_witness :
    ((newDetector.isInitialized = false ∨ newDetector.cocoModel = none)
      ∧ (loadModel newDetector
          (some (fun source _ => if source = "center" then none
            else some []))).1.isInitialized = true
      ∧ ∃ v ∈ plannedViews ⟨1200, 600⟩
          (roomTypeKey (getRoomTypeFromName "kitchen")),
          (fun (source : String) (_ : Nat) =>
            if source = "center" then (none : Option (List Prediction))
            else some []) v.source v.maxResults = none)
    ∧ (analyzeRoom newDetector (fun _ => 1 / 2) ⟨1200, 600⟩ "kitchen").result
        = Except.error "Model not initialized"
    ∧ (analyzeRoom newDetector (fun _ => 1 / 2) ⟨1200, 600⟩ "kitchen").calls
        = []
    ∧ (analyzeRoom
        (loadModel newDetector
          (some (fun source _ => if source = "center" then none
            else some []))).1
        (fun _ => 1 / 2) ⟨1200, 600⟩ "kitchen").result = Except.ok [] :=
  ⟨⟨Or.inl rfl, rfl, ⟨"center", 1.2, 10⟩, by simp [plannedViews], by simp⟩,
    (analyzeRoom_errors newDetector (fun _ => 1 / 2) ⟨1200, 600⟩
      "kitchen").1.mpr (Or.inl rfl),
    (analyzeRoom_errors newDetector (fun _ => 1 / 2) ⟨1200, 600⟩
      "kitchen").2.1 (Or.inl rfl),
    ((analyzeRoom_errors
      (loadModel newDetector
        (some (fun source _ => if source = "center" then none
          else some []))).1
      (fun _ => 1 / 2) ⟨1200, 600⟩ "kitchen").2.2 _ rfl rfl).2
      ⟨⟨"center", 1.2, 10⟩, by simp [plannedViews], by simp⟩⟩

/-! ## Independence of the detection order -/

theorem foldl_max_eq_of_mem_iff (l1 l2 : List Int) (a : Int)
    (h : ∀ c, c ∈ l1 ↔ c ∈ l2) : l1.foldl max a = l2.foldl max a := by
  apply le_antisymm
  · rcases foldl_max_eq_or_mem l1 a with h1 | h1
    · rw [h1]; exact (le_foldl_max l2 a).1
    · exact (le_foldl_max l2 a).2 _ ((h _).mp h1)
  · rcases foldl_max_eq_or_mem l2 a with h1 | h1
    · rw [h1]; exact (le_foldl_max l1 a).1
    · exact (le_foldl_max l1 a).2 _ ((h _).mpr h1)

theorem length_foldl_setAdd_of_perm (l1 l2 : List String)
    (h : l1.Perm l2) :
    (l1.foldl setAdd []).length = (l2.foldl setAdd []).length := by
  apply List.Perm.length_eq
  rw [List.perm_ext_iff_of_nodup (nodup_foldl_setAdd l1 [] List.nodup_nil)
    (nodup_foldl_setAdd l2 [] List.nodup_nil)]
  intro t
  rw [mem_foldl_setAdd, mem_foldl_setAdd, h.mem_iff]

theorem postProcess_congr (roomType L : String) (a b : ItemEstimate)
    (hcount : a.count = b.count)
    (hconf : a.confidences.Perm b.confidences)
    (hmax : a.maxConfidence = b.maxConfidence)
    (hsrc : a.sources.length = b.sources.length) :
    (postProcess roomType L a).count = (postProcess roomType L b).count
      ∧ (postProcess roomType L a).maxConfidence
          = (postProcess roomType L b).maxConfidence
      ∧ (postProcess roomType L a).avgConfidence
          = (postProcess roomType L b).avgConfidence
      ∧ (postProcess roomType L a).detectionQuality
          = (postProcess roomType L b).detectionQuality := by
  have hsum : a.confidences.sum = b.confidences.sum := hconf.sum_eq
  have hlen : a.confidences.length = b.confidences.length := hconf.length_eq
  simp only [postProcess, intelligentDeduplication, assessDetectionQuality,
    hcount, hmax, hsrc, hsum, hlen]
  exact ⟨trivial, trivial, trivial, trivial⟩

/-- C20: the result of `processDetections` does not depend on the order of
the detections: for a permutation of the input, a label has an entry in one
result exactly when it has one in the other, with the same count,
`maxConfidence`, `avgConfidence`, `detectionQuality`, the same set of sources
and the same multiset of confidences. -/
theorem processDetections_perm (detections permuted : List Detection)
    (roomType L : String) (hperm : detections.Perm permuted) :
    (Obj.get (processDetections detections roomType) L = none
        ↔ Obj.get (processDetections permuted roomType) L = none)
      ∧ (∀ e1 e2,
          Obj.get (processDetections detections roomType) L = some e1 →
          Obj.get (processDetections permuted roomType) L = some e2 →
          e1.count = e2.count
            ∧ e1.maxConfidence = e2.maxConfidence
            ∧ e1.avgConfidence = e2.avgConfidence
            ∧ e1.detectionQuality = e2.detectionQuality
            ∧ (∀ t, t ∈ e1.sources ↔ t ∈ e2.sources)
            ∧ e1.confidences.Perm e2.confidences) := by
  have hS : (survivorsOf roomType L detections).Perm
      (survivorsOf roomType L permuted) := by
    unfold survivorsOf
    exact hperm.filter _
  constructor
  · rw [get_processDetections, get_processDetections]
    by_cases h1 : survivorsOf roomType L detections = []
    · have h2 : survivorsOf roomType L permuted = [] := by
        rw [h1] at hS
        exact List.Perm.eq_nil (hS.symm)
      rw [if_pos h1, if_pos h2]
    · have h2 : survivorsOf roomType L permuted ≠ [] := by
        intro h
        rw [h] at hS
        exact h1 (List.Perm.eq_nil hS)
      rw [if_neg h1, if_neg h2]
      simp
  · intro e1 e2 he1 he2
    obtain ⟨_, h1⟩ := get_processDetections_some _ _ _ _ he1
    obtain ⟨_, h2⟩ := get_processDetections_some _ _ _ _ he2
    rw [foldl_bump] at h1 h2
    have hconf : ((survivorsOf roomType L detections).map percentOf).Perm
        ((survivorsOf roomType L permuted).map percentOf) := hS.map _
    have hsrc : ((survivorsOf roomType L detections).map
        Detection.source).Perm
        ((survivorsOf roomType L permuted).map Detection.source) := hS.map _
    have hpp := postProcess_congr roomType L
      { count := freshEntry.count + (survivorsOf roomType L detections).length
        confidences := freshEntry.confidences
          ++ (survivorsOf roomType L detections).map percentOf
        maxConfidence := ((survivorsOf roomType L detections).map
          percentOf).foldl max freshEntry.maxConfidence
        avgConfidence := freshEntry.avgConfidence
        sources := ((survivorsOf roomType L detections).map
          Detection.source).foldl setAdd freshEntry.sources
        detectionQuality := freshEntry.detectionQuality
        type := freshEntry.type }
      { count := freshEntry.count + (survivorsOf roomType L permuted).length
        confidences := freshEntry.confidences
          ++ (survivorsOf roomType L permuted).map percentOf
        maxConfidence := ((survivorsOf roomType L permuted).map
          percentOf).foldl max freshEntry.maxConfidence
        avgConfidence := freshEntry.avgConfidence
        sources := ((survivorsOf roomType L permuted).map
          Detection.source).foldl setAdd freshEntry.sources
        detectionQuality := freshEntry.detectionQuality
        type := freshEntry.type }
      (by simp [hS.length_eq])
      (by simpa [freshEntry] using hconf)
      (foldl_max_eq_of_mem_iff _ _ _ (fun c => hconf.mem_iff))
      (length_foldl_setAdd_of_perm _ _ hsrc)
    rw [← h1, ← h2] at hpp
    refine ⟨hpp.1, hpp.2.1, hpp.2.2.1, hpp.2.2.2, ?_, ?_⟩
    · intro t
      rw [h1, h2]
      simp only [postProcess, freshEntry, mem_foldl_setAdd, hsrc.mem_iff]
    · rw [h1, h2]
      simpa [postProcess, freshEntry] using hconf

theorem processDetections_twoChairs_swapped :
    Obj.get (processDetections
        [⟨"chair", 0.5, "center", 1.2⟩, ⟨"chair", 0.5, "full", 1⟩] "general")
        "chair"
      = some ⟨2, [60, 50], 60, 55, ["center", "full"], "medium", none⟩ := by
  have hS : survivorsOf "general" "chair"
      [⟨"chair", 0.5, "center", 1.2⟩, ⟨"chair", 0.5, "full", 1⟩]
      = [⟨"chair", 0.5, "center", 1.2⟩, ⟨"chair", 0.5, "full", 1⟩] := by
    rw [survivorsOf_eq_spec]
    simp [specAccepts, specThreshold, specImplausible, contextFilters,
      roomAdjustments, baseThresholds, Obj.get, specAdjusted]
    norm_num
  rw [get_processDetections, hS, if_neg (by simp), foldl_bump]
  have p1 : percentOf ⟨"chair", 0.5, "full", 1⟩ = 50 := by
    rw [percentOf_eq]
    apply jsRound_eq <;> norm_num [specAdjusted]
  have p2 : percentOf ⟨"chair", 0.5, "center", 1.2⟩ = 60 := by
    rw [percentOf_eq]
    apply jsRound_eq <;> norm_num [specAdjusted]
  have ha : jsRound ((110 : ℚ) / 2) = 55 := by
    apply jsRound_eq <;> norm_num
  have hd : intelligentDeduplication
      ⟨2, [60, 50], 60, 55, ["center", "full"], "medium", none⟩
      "chair" "general" = 2 := by
    unfold intelligentDeduplication
    simp only []
    rw [deduplicationFactor_eq_spec, roomMultiplier_eq_spec]
    have hdiv : specDivisor "chair" 2 = 8 / 5 := by
      simp [specDivisor]; norm_num
    have hmul : specMultiplier "general" "chair" = 1 := by
      simp [specMultiplier]
    have hc : jsCeil ((2 : ℚ) / (8 / 5)) = 2 := by
      apply jsCeil_eq <;> norm_num
    simp [hdiv, hmul, hc]
  simp [p1, p2, freshEntry, setAdd, postProcess, ha, hd,
    assessDetectionQuality]

theorem processDetections_perm_witness :
    (([⟨"chair", 0.5, "full", 1⟩, ⟨"chair", 0.5, "center", 1.2⟩] :
          List Detection).Perm
        [⟨"chair", 0.5, "center", 1.2⟩, ⟨"chair", 0.5, "full", 1⟩]
      ∧ Obj.get (processDetections
          [⟨"chair", 0.5, "full", 1⟩, ⟨"chair", 0.5, "center", 1.2⟩]
          "general") "chair"
        = some ⟨2, [50, 60], 60, 55, ["full", "center"], "medium", none⟩
      ∧ Obj.get (processDetections
          [⟨"chair", 0.5, "center", 1.2⟩, ⟨"chair", 0.5, "full", 1⟩]
          "general") "chair"
        = some ⟨2, [60, 50], 60, 55, ["center", "full"], "medium", none⟩)
    ∧ ((2 : Int) = 2 ∧ (60 : Int) = 60 ∧ (55 : Int) = 55
      ∧ "medium" = "medium"
      ∧ (∀ t, t ∈ ["full", "center"] ↔ t ∈ ["center", "full"])
      ∧ ([50, 60] : List Int).Perm [60, 50]) :=
  ⟨⟨List.Perm.swap _ _ _, processDetections_twoChairs,
      processDetections_twoChairs_swapped⟩,
    (processDetections_perm _ _ "general" "chair"
      (List.Perm.swap _ _ _)).2 _ _ processDetections_twoChairs
      processDetections_twoChairs_swapped⟩

/-! ## The person rule -/

theorem specThreshold_person_ge (roomType : String) :
    (0.5 : ℚ) ≤ specThreshold roomType "person" := by
  unfold specThreshold roomAdjustments
  split_ifs <;> simp [Obj.get, baseThresholds] <;> norm_num

/-- C21: the person rule of `shouldFilterDetection` is redundant inside
`processDetections`: for every room type `person` is in no implausible list
and its threshold from `getRoomSpecificThresholds` is at least `0.5`, so a
`person` detection that passes the threshold test is never rejected by
`shouldFilterDetection` and is kept. -/
theorem person_rule_redundant (roomType : String) (d : Detection)
    (hclass : d.className = "person") :
    (∀ f, contextFilters roomType = some f → "person" ∉ f.unlikely)
      ∧ (0.5 : ℚ)
          ≤ jsOr (Obj.get (getRoomSpecificThresholds roomType) "person") 0.25
      ∧ (¬ confidenceOf d
            < jsOr (Obj.get (getRoomSpecificThresholds roomType) "person")
                0.25 →
          shouldFilterDetection d roomType (confidenceOf d) = false
            ∧ ¬ confidenceOf d < 0.5
            ∧ survives roomType d = true) := by
  have hthr := specThreshold_person_ge roomType
  have himp := person_not_implausible roomType
  refine ⟨?_, ?_, ?_⟩
  · intro f hf
    unfold specImplausible at himp
    rw [hf] at himp
    exact himp
  · rw [threshold_eq_spec]
    exact hthr
  · intro hpass
    rw [threshold_eq_spec] at hpass
    have hge : (0.5 : ℚ) ≤ confidenceOf d := le_trans hthr (not_lt.mp hpass)
    have hfilter : shouldFilterDetection d roomType (confidenceOf d)
        = false := by
      rw [shouldFilterDetection_eq, hclass]
      exact ⟨fun h => absurd h himp, fun _ => hge⟩
    refine ⟨hfilter, not_lt.mpr hge, ?_⟩
    unfold survives
    simp only []
    rw [hclass, threshold_eq_spec, if_neg hpass, hfilter]
    rfl

theorem person_rule_redundant_witness :
    ((⟨"person", 0.5, "full", 1⟩ : Detection).className = "person"
      ∧ ¬ confidenceOf ⟨"person", 0.5, "full", 1⟩
          < jsOr (Obj.get (getRoomSpecificThresholds "entrance") "person")
              0.25)
    ∧ shouldFilterDetection ⟨"person", 0.5, "full", 1⟩ "entrance"
        (confidenceOf ⟨"person", 0.5, "full", 1⟩) = false
    ∧ ¬ confidenceOf ⟨"person", 0.5, "full", 1⟩ < 0.5
    ∧ survives "entrance" ⟨"person", 0.5, "full", 1⟩ = true :=
  have hpass : ¬ confidenceOf ⟨"person", 0.5, "full", 1⟩
      < jsOr (Obj.get (getRoomSpecificThresholds "entrance") "person")
          0.25 := by
    rw [threshold_eq_spec]
    simp [specThreshold, roomAdjustments, Obj.get, confidenceOf, jsOr]
  ⟨⟨rfl, hpass⟩,
    (person_rule_redundant "entrance" ⟨"person", 0.5, "full", 1⟩ rfl).2.2
      hpass⟩

end VastuScan
